import Mathlib

/-!
Verification development for the `paragraf` repository (Norwegian legal
document lookup service).  The Python sources are shallowly embedded:

* `src/paragraf/_supabase_utils.py` — error classification and retry layer;
* `src/paragraf/service.py`        — `LovdataService` query engine;
* `src/paragraf/sqlite_backend.py` — `LovdataSyncService` store/sync layer.

Modelling conventions:
* Python `str` is modelled by Lean `String` (sequence of unicode code
  points).  Library helpers that do not reduce in the kernel are
  re-implemented on `List Char` with Python semantics; `Char.toLower` /
  `Char.toUpper` are ASCII-only, which matches the ASCII identifiers the
  embedded code paths manipulate (a modelling idealisation for non-ASCII
  letters).  `str.strip` is modelled on `Char.isWhitespace` (space, tab,
  CR, LF), an ASCII approximation of Python's whitespace class.
* A Python function that may raise is modelled as returning
  `Except Unit α`; `Except.error ()` is an uncaught exception.
* The storage backend reached through `_get_backend_service()` is
  abstracted as a record of effectful methods (`Backend` below); `hasattr`
  probes become capability flags.
* CPython float arithmetic `int(c / 3.5)` on a nonnegative integer `c` is
  modelled as `2 * c / 7` in `Nat`: `3.5` is exactly representable, the
  quotient `2c/7`, when not an integer, is at distance ≥ 1/7 from any
  integer, so the correctly rounded double never crosses an integer
  boundary for any representable `c`.
-/

namespace Paragraf

/-! ## Generic string helpers (Python `str` semantics on `List Char`) -/

/-- Python `str.lower` (ASCII case mapping). -/
def pyLower (s : String) : String := ⟨s.data.map Char.toLower⟩

/-- Python `str.upper` (ASCII case mapping). -/
def pyUpper (s : String) : String := ⟨s.data.map Char.toUpper⟩

/-- Python `str.strip()` on a char list: drop whitespace at both ends. -/
def stripChars (l : List Char) : List Char :=
  ((l.dropWhile Char.isWhitespace).reverse.dropWhile Char.isWhitespace).reverse

/-- Python `str.strip()`. -/
def pyStrip (s : String) : String := ⟨stripChars s.data⟩

/-- Python truthiness test `not s or not s.strip()` used for input validation. -/
def isBlank (s : String) : Bool := pyStrip s = ""

/-- Python `sep.join(items)`. -/
def joinSep (sep : String) : List String → String
  | [] => ""
  | [x] => x
  | x :: xs => x ++ sep ++ joinSep sep xs

/-- Python `s.startswith(p)`. -/
def pyStartsWith (s p : String) : Bool := p.data.isPrefixOf s.data

/-- One step of Python `str.replace` on char lists (leftmost,
non-overlapping), fuelled by the input length so the recursion is
structural.  An empty pattern is left unchanged (the embedded call
sites never pass one). -/
def replaceL (pat repl : List Char) : Nat → List Char → List Char
  | 0, l => l
  | _ + 1, [] => []
  | fuel + 1, c :: rest =>
    if pat.isPrefixOf (c :: rest) ∧ pat ≠ [] then
      repl ++ replaceL pat repl fuel ((c :: rest).drop pat.length)
    else
      c :: replaceL pat repl fuel rest

/-- Python `s.replace(pat, repl)` (all non-overlapping occurrences,
left to right). -/
def pyReplace (s pat repl : String) : String :=
  ⟨replaceL pat.data repl.data s.data.length s.data⟩

/-- Python string comparison `<` (lexicographic on code points). -/
def strLtB : List Char → List Char → Bool
  | [], [] => false
  | [], _ :: _ => true
  | _ :: _, [] => false
  | a :: as, b :: bs => if a < b then true else if b < a then false else strLtB as bs

/-- Python `a <= b` on strings. -/
def strLeB (a b : String) : Bool := strLtB a.data b.data || a == b

/-- Stable insertion into a sorted list: the new element goes after any
element `y` with `le y x` (so a stable sort overall, matching CPython's
stable `list.sort` / `sorted`). -/
def insertStable (le : α → α → Bool) (x : α) : List α → List α
  | [] => [x]
  | y :: ys => if le y x then y :: insertStable le x ys else x :: y :: ys

/-- Stable sort by a boolean `le` (models CPython `sorted` / `list.sort`,
which are stable; any two stable sorts by the same key agree). -/
def sortByB (le : α → α → Bool) (l : List α) : List α :=
  l.foldl (fun acc x => insertStable le x acc) []

/-- Substring occurrence: `a` occurs contiguously inside `b`
(Python `a in b`). -/
def OccursIn (a b : String) : Prop := ∃ u v, b.data = u ++ a.data ++ v

/-- Boolean substring test (Python `a in b`), executable. -/
def containsSub (a : List Char) : List Char → Bool
  | [] => a.isEmpty
  | c :: rest => a.isPrefixOf (c :: rest) || containsSub a rest

/-- Python `a in b` for strings. -/
def pyContains (b a : String) : Bool := containsSub a.data b.data

/-- Python `f"{n:,}"`: decimal digits grouped in threes by commas.
Input is the reversed digit list. -/
def commaGroupRev : List Char → List Char
  | a :: b :: c :: d :: rest => a :: b :: c :: ',' :: commaGroupRev (d :: rest)
  | l => l

/-- Python `f"{n:,}"` for a nonnegative integer. -/
def commaFmt (n : Nat) : String := ⟨(commaGroupRev (Nat.repr n).data.reverse).reverse⟩

theorem dropWhile_len_le (p : α → Bool) (l : List α) :
    (l.dropWhile p).length ≤ l.length := by
  induction l with
  | nil => simp [List.dropWhile]
  | cons c rest ih =>
    simp only [List.dropWhile]
    split
    · exact Nat.le_trans ih (by simp)
    · simp

/-- State machine for Python `" ".join(s.split())`: `inWs` records that
we are inside a whitespace run following an emitted character, so a
single `' '` is emitted before the next word and trailing whitespace is
dropped. -/
def collapseWsAux : Bool → List Char → List Char
  | _, [] => []
  | inWs, c :: rest =>
    if Char.isWhitespace c then collapseWsAux true rest
    else if inWs then ' ' :: c :: collapseWsAux false rest
    else c :: collapseWsAux false rest

/-- Python `" ".join(s.split())` on strings. -/
def collapseWs (s : String) : String :=
  ⟨collapseWsAux false (s.data.dropWhile Char.isWhitespace)⟩

/-! ## `_supabase_utils.py`: error classification and retry layer -/

/-- The exceptions `classify_error` can receive, abstracted from
`httpx` / `postgrest` exception types. -/
inductive PyExc where
  | timeout
  | connectError
  | apiError (code : String) (message : String)
  | httpStatus (status : Nat) (retryAfter : Option Nat)
  | other (desc : String)
deriving DecidableEq, Repr

/-- The `SupabaseError` hierarchy: `TransientError`, `RateLimitError`
(a subclass of `TransientError`), `PermanentError`, and the bare base
class. -/
inductive SupErr where
  | transient
  | rateLimited (retryAfter : Option Nat)
  | permanent
  | plainBase
deriving DecidableEq, Repr

/-- `classify_error` from `_supabase_utils.py` (lines 81–117): network
errors and timeouts are transient; `postgrest` `APIError`s are permanent
unless their code starts with `5`/`PGRST5`; HTTP 429 is rate-limited,
HTTP 500/502/503/504 are transient, every other HTTP status is
permanent; anything unknown is transient. -/
def classifyError : PyExc → SupErr
  | .timeout => .transient
  | .connectError => .transient
  | .apiError code message =>
    if pyStartsWith code "PGRST3" || pyContains (pyUpper message) "JWT" then .permanent
    else if code == "23505" || pyContains (pyLower message) "unique" then .permanent
    else if pyStartsWith code "5" || pyStartsWith code "PGRST5" then .transient
    else .permanent
  | .httpStatus status retryAfter =>
    if status == 429 then .rateLimited retryAfter
    else if status == 500 || status == 502 || status == 503 || status == 504 then .transient
    else .permanent
  | .other _ => .transient

/-- Outcome of one call of the wrapped function: success, an
already-classified `SupabaseError`, or a raw exception. -/
inductive CallOutcome (α : Type) where
  | ok (a : α)
  | errSup (e : SupErr)
  | errRaw (e : PyExc)

/-- Failure of the whole retry wrapper: a (possibly re-classified)
`SupabaseError`, or the unreachable trailing `RuntimeError`. -/
inductive RetryFailure where
  | sup (e : SupErr)
  | runtime
deriving DecidableEq, Repr

/-- Result of `with_retry`: the value or exception, together with how
many times the wrapped function was called and the slept backoffs. -/
structure RetryResult (α : Type) where
  result : Except RetryFailure α
  calls : Nat
  sleeps : List ℚ

/-- `min(_base * (2**attempt), _max_backoff)`. -/
def expBackoff (base cap : ℚ) (attempt : Nat) : ℚ := min (base * 2 ^ attempt) cap

/-- Jitter application: `backoff = max(0, backoff + backoff * 0.25 *
(2 * random.random() - 1))` when `RETRY_JITTER` is set. -/
def jittered (jitterOn : Bool) (b r : ℚ) : ℚ :=
  if jitterOn then max 0 (b + b * (1 / 4) * (2 * r - 1)) else b

/-- The `for attempt in range(_max)` loop of `with_retry`
(`_supabase_utils.py` lines 141–179).  `behav n` is the outcome of the
`n`-th call of the wrapped function, `rand n` the `n`-th draw of
`random.random()`.  The first `Nat` argument is the number of loop
iterations still available (initially `maxA`); exhausting it without
having run corresponds to the trailing `RuntimeError`. -/
def withRetryLoop (behav : Nat → CallOutcome α) (maxA : Nat) (base cap : ℚ)
    (jitterOn : Bool) (rand : Nat → ℚ) :
    Nat → Nat → Nat → List ℚ → RetryResult α
  | 0, _, calls, sleeps => ⟨.error .runtime, calls, sleeps⟩
  | remaining + 1, attempt, calls, sleeps =>
    match behav attempt with
    | .ok a => ⟨.ok a, calls + 1, sleeps⟩
    | .errSup .transient =>
      if attempt = maxA - 1 then ⟨.error (.sup .transient), calls + 1, sleeps⟩
      else
        let s := jittered jitterOn (expBackoff base cap attempt) (rand attempt)
        withRetryLoop behav maxA base cap jitterOn rand remaining (attempt + 1) (calls + 1)
          (sleeps ++ [s])
    | .errSup (.rateLimited ra) =>
      if attempt = maxA - 1 then ⟨.error (.sup (.rateLimited ra)), calls + 1, sleeps⟩
      else
        let b := match ra with
          | some n => if n ≠ 0 then min (n : ℚ) cap else expBackoff base cap attempt
          | none => expBackoff base cap attempt
        let s := jittered jitterOn b (rand attempt)
        withRetryLoop behav maxA base cap jitterOn rand remaining (attempt + 1) (calls + 1)
          (sleeps ++ [s])
    | .errSup .permanent => ⟨.error (.sup .permanent), calls + 1, sleeps⟩
    | .errSup .plainBase => ⟨.error (.sup .plainBase), calls + 1, sleeps⟩
    | .errRaw e =>
      match classifyError e with
      | .transient =>
        if attempt = maxA - 1 then ⟨.error (.sup .transient), calls + 1, sleeps⟩
        else
          let s := jittered jitterOn (expBackoff base cap attempt) (rand attempt)
          withRetryLoop behav maxA base cap jitterOn rand remaining (attempt + 1) (calls + 1)
            (sleeps ++ [s])
      | .rateLimited ra =>
        if attempt = maxA - 1 then ⟨.error (.sup (.rateLimited ra)), calls + 1, sleeps⟩
        else
          let s := jittered jitterOn (expBackoff base cap attempt) (rand attempt)
          withRetryLoop behav maxA base cap jitterOn rand remaining (attempt + 1) (calls + 1)
            (sleeps ++ [s])
      | .permanent => ⟨.error (.sup .permanent), calls + 1, sleeps⟩
      | .plainBase => ⟨.error (.sup .plainBase), calls + 1, sleeps⟩

/-- Python `x or DEFAULT` resolution for an optional numeric knob
(`None` and `0` both fall back to the default). -/
def resolveOrN (v : Option Nat) (d : Nat) : Nat :=
  match v with
  | some n => if n = 0 then d else n
  | none => d

/-- Python `x or DEFAULT` for the rational knobs. -/
def resolveOrQ (v : Option ℚ) (d : ℚ) : ℚ :=
  match v with
  | some x => if x = 0 then d else x
  | none => d

/-- Environment defaults (`_supabase_utils.py` lines 28–31):
`RETRY_MAX_ATTEMPTS=3`, `RETRY_BACKOFF_BASE=0.5`, `RETRY_BACKOFF_MAX=30.0`. -/
def defaultMaxAttempts : Nat := 3

def defaultBackoffBase : ℚ := 1 / 2

def defaultBackoffMax : ℚ := 30

/-- `with_retry(max_attempts, backoff_base, backoff_max)` applied to a
function whose `n`-th call gives `behav n`. -/
def withRetry (maxAttempts : Option Nat) (backoffBase backoffMax : Option ℚ)
    (jitterOn : Bool) (behav : Nat → CallOutcome α) (rand : Nat → ℚ) : RetryResult α :=
  withRetryLoop behav (resolveOrN maxAttempts defaultMaxAttempts)
    (resolveOrQ backoffBase defaultBackoffBase) (resolveOrQ backoffMax defaultBackoffMax)
    jitterOn rand (resolveOrN maxAttempts defaultMaxAttempts) 0 0 []

/-! ## `service.py`: `_format_based_on` (lines 582–624)

The function normalises by `re.sub(r";\s*", "", raw)`, splits on the
zero-width boundary `(?=(?:lov|forskrift)/\d{4})`, parses each piece
with `re.match(r"((?:lov|forskrift)/\d{4}-\d{2}-\d{2}-\d+)(?:/§(.+))?$",
ref)`, groups by document id in an insertion-ordered dict, and renders
the groups joined by `"; "`.  `\d` is modelled as the ASCII digit test. -/

/-- State machine for `re.sub(r";\s*", "", raw)`: every `;` together
with the whitespace run following it is removed.  The flag records
"currently skipping the whitespace of a match". -/
def removeSemisAux : Bool → List Char → List Char
  | _, [] => []
  | skip, c :: rest =>
    if c = ';' then removeSemisAux true rest
    else if skip ∧ Char.isWhitespace c then removeSemisAux true rest
    else c :: removeSemisAux false rest

/-- `re.sub(r";\s*", "", raw)`. -/
def removeSemis (l : List Char) : List Char := removeSemisAux false l

/-- Does the whole character-class pattern match a prefix of the
input?  (`false` when the input is shorter than the pattern.) -/
def charsMatch : List (Char → Bool) → List Char → Bool
  | [], _ => true
  | _ :: _, [] => false
  | p :: ps, c :: cs => p c && charsMatch ps cs

/-- Is the input consistent with the pattern as far as it goes?  (An
input shorter than the pattern is consistent when every available
character matches.) -/
def compat : List (Char → Bool) → List Char → Bool
  | _, [] => true
  | [], _ => true
  | p :: ps, c :: cs => p c && compat ps cs

/-- The character classes of `lov/\d{4}`. -/
def lovPat : List (Char → Bool) :=
  [(· == 'l'), (· == 'o'), (· == 'v'), (· == '/'),
    Char.isDigit, Char.isDigit, Char.isDigit, Char.isDigit]

/-- The character classes of `forskrift/\d{4}`. -/
def forPat : List (Char → Bool) :=
  [(· == 'f'), (· == 'o'), (· == 'r'), (· == 's'), (· == 'k'), (· == 'r'), (· == 'i'),
    (· == 'f'), (· == 't'), (· == '/'), Char.isDigit, Char.isDigit, Char.isDigit, Char.isDigit]

/-- Does the lookahead `(?:lov|forskrift)/\d{4}` match at the head of
the list? -/
def isBoundary (l : List Char) : Bool :=
  charsMatch lovPat l || charsMatch forPat l

/-- Worker for `re.split(r"(?=(?:lov|forskrift)/\d{4})", s)`: cut the
input at every interior position where the boundary matches. -/
def splitBGo (cur : List Char) : List Char → List (List Char)
  | [] => [cur.reverse]
  | c :: rest =>
    if isBoundary (c :: rest) ∧ cur ≠ [] then
      cur.reverse :: splitBGo [c] rest
    else
      splitBGo (c :: cur) rest

/-- `re.split(r"(?=(?:lov|forskrift)/\d{4})", s)` followed by
`[p for p in parts if p]`. -/
def splitBoundary (l : List Char) : List (List Char) :=
  (splitBGo [] l).filter (· ≠ [])

/-- Parse exactly `n` ASCII digits. -/
def parseNDigits : Nat → List Char → Option (List Char × List Char)
  | 0, l => some ([], l)
  | _ + 1, [] => none
  | n + 1, c :: rest =>
    if c.isDigit then (parseNDigits n rest).map (fun p => (c :: p.1, p.2)) else none

/-- Maximal run of ASCII digits (`\d+`, greedy). -/
def takeDigitsRun : List Char → List Char × List Char
  | [] => ([], [])
  | c :: rest =>
    if c.isDigit then
      let p := takeDigitsRun rest
      (c :: p.1, p.2)
    else ([], c :: rest)

/-- Parse `\d{4}-\d{2}-\d{2}-\d+` returning the consumed characters and
the remainder. -/
def parseDocTail (l : List Char) : Option (List Char × List Char) := do
  let p4 ← parseNDigits 4 l
  match p4.2 with
  | '-' :: r2 => do
    let pa ← parseNDigits 2 r2
    match pa.2 with
    | '-' :: r4 => do
      let pb ← parseNDigits 2 r4
      match pb.2 with
      | '-' :: r6 =>
        let pn := takeDigitsRun r6
        if pn.1 = [] then none
        else some (p4.1 ++ '-' :: pa.1 ++ '-' :: pb.1 ++ '-' :: pn.1, pn.2)
      | _ => none
    | _ => none
  | _ => none

/-- Parse group 1, `(?:lov|forskrift)/\d{4}-\d{2}-\d{2}-\d+` (the `lov`
alternative is tried first; the two are disjoint on their first
character). -/
def parseDocId (l : List Char) : Option (List Char × List Char) :=
  match l with
  | 'l' :: 'o' :: 'v' :: '/' :: rest =>
    (parseDocTail rest).map (fun p => ('l' :: 'o' :: 'v' :: '/' :: p.1, p.2))
  | 'f' :: 'o' :: 'r' :: 's' :: 'k' :: 'r' :: 'i' :: 'f' :: 't' :: '/' :: rest =>
    (parseDocTail rest).map
      (fun p => ('f' :: 'o' :: 'r' :: 's' :: 'k' :: 'r' :: 'i' :: 'f' :: 't' :: '/' :: p.1, p.2))
  | _ => none

/-- The `(.+)` body of the optional section group: `.` does not match a
newline and `$` accepts either the end of the string or a position just
before a single final newline. -/
def paraBody (q : List Char) : Option (List Char) :=
  if q ≠ [] ∧ '\n' ∉ q then some q
  else if q.getLast? = some '\n' ∧ q.dropLast ≠ [] ∧ '\n' ∉ q.dropLast then some q.dropLast
  else none

/-- `re.match(r"((?:lov|forskrift)/\d{4}-\d{2}-\d{2}-\d+)(?:/§(.+))?$", ref)`
as `(doc_id, section?)`. -/
def matchRef (l : List Char) : Option (List Char × Option (List Char)) :=
  match parseDocId l with
  | none => none
  | some (doc, rest) =>
    match rest with
    | [] => some (doc, none)
    | ['\n'] => some (doc, none)
    | '/' :: '§' :: q =>
      match paraBody q with
      | some p => some (doc, some p)
      | none => none
    | _ => none

/-- One entry of the insertion-ordered `grouped` dict. -/
structure RefGroup where
  key : List Char
  paras : List (List Char)
deriving DecidableEq, Repr

/-- The matched-reference branch: create the key if absent, then append
the section when one was captured (`if paragraph:` — a captured group is
always a nonempty string). -/
def addMatched (gs : List RefGroup) (doc : List Char) (p : Option (List Char)) : List RefGroup :=
  if gs.any (fun g => g.key = doc) then
    match p with
    | some para => gs.map (fun g => if g.key = doc then ⟨g.key, g.paras ++ [para]⟩ else g)
    | none => gs
  else
    match p with
    | some para => gs ++ [⟨doc, [para]⟩]
    | none => gs ++ [⟨doc, []⟩]

/-- The unmatched branch `grouped[ref] = []`: reset an existing key or
append a fresh bare one. -/
def setBare (gs : List RefGroup) (ref : List Char) : List RefGroup :=
  if gs.any (fun g => g.key = ref) then
    gs.map (fun g => if g.key = ref then ⟨g.key, []⟩ else g)
  else gs ++ [⟨ref, []⟩]

/-- Process one piece of the split input. -/
def addPiece (gs : List RefGroup) (piece : List Char) : List RefGroup :=
  match matchRef piece with
  | some dp => addMatched gs dp.1 dp.2
  | none => setBare gs piece

/-- Render one group: `doc`, `doc § s`, or `doc §§ s1, s2`. -/
def renderGroup (g : RefGroup) : String :=
  match g.paras with
  | [] => ⟨g.key⟩
  | [p] => String.mk g.key ++ " § " ++ String.mk p
  | ps => String.mk g.key ++ " §§ " ++ joinSep ", " (ps.map String.mk)

/-- `LovdataService._format_based_on` (`service.py` lines 582–624). -/
def formatBasedOn (raw : String) : String :=
  let normalized := removeSemis raw.data
  let partsRaw := splitBoundary normalized
  if partsRaw = [] then raw
  else joinSep "; " ((partsRaw.foldl addPiece []).map renderGroup)

/-! ## `service.py`: data model and the abstract backend

Python truthiness of optional strings/ints shows up throughout the
service code; `truthy`/`truthyN` model `if x:` on `Optional[str]` /
`Optional[int]`. -/

/-- `if x:` for an optional string (`None` and `""` are falsy). -/
def truthy : Option String → Bool
  | some s => s ≠ ""
  | none => false

/-- `if x:` for an optional integer (`None` and `0` are falsy). -/
def truthyN : Option Nat → Bool
  | some n => n ≠ 0
  | none => false

/-- `x.get(k, "") or ""`: the value with both `None` and `""` collapsed
to `""`. -/
def orEmpty (o : Option String) : String := o.getD ""

/-- Rendering a possibly-`None` value inside an f-string. -/
def pyShow : Option String → String
  | some s => s
  | none => "None"

/-- `a or b or c` for two optional strings with a final string. -/
def firstTruthyD (a b : Option String) (c : String) : String :=
  if truthy a then a.getD "" else if truthy b then b.getD "" else c

/-- Python slicing `s[n:]` (by code points). -/
def strDrop (s : String) (n : Nat) : String := ⟨s.data.drop n⟩

/-- Python slicing `s[:n]` (by code points). -/
def strTake (s : String) (n : Nat) : String := ⟨s.data.take n⟩

/-- Python `s.lstrip("§")`. -/
def lstripSectionMark (s : String) : String := ⟨s.data.dropWhile (· = '§')⟩

/-- A `LawSection` as returned by the backend (dataclass in
`sqlite_backend.py` lines 65–79). -/
structure LawSection where
  dok_id : String
  section_id : String
  title : Option String
  content : String
  address : Option String
  char_count : Nat
deriving DecidableEq, Repr

/-- A row of the `documents` table as a dict (fields the service
reads). -/
structure DocMeta where
  dok_id : String
  title : Option String
  short_title : Option String
  ministry : Option String
  legal_area : Option String
  based_on : Option String
  is_amendment : Bool
  is_current : Bool
deriving DecidableEq, Repr

/-- A section summary dict from `list_sections`. -/
structure SectionSummary where
  section_id : String
  title : Option String
  char_count : Nat
  estimated_tokens : Nat
  address : Option String
deriving DecidableEq, Repr

/-- A structure row from `list_structures` (relational backend);
values may be `NULL`. -/
structure StructRow where
  structure_type : Option String
  structure_id : Option String
  title : Option String
  address : Option String
deriving DecidableEq, Repr

/-- A search hit row (dict branch of `_format_fts_results`). -/
structure FtsRow where
  dok_id : String
  title : Option String
  short_title : Option String
  doc_type : Option String
  based_on : Option String
  legal_area : Option String
  is_current : Option Bool
  section_id : Option String
  search_mode : Option String
  snippet : Option String
deriving DecidableEq, Repr

/-- A related-regulation row from `find_related_regulations`. -/
structure RegRow where
  dok_id : Option String
  title : Option String
  short_title : Option String
  ministry : Option String
deriving DecidableEq, Repr

/-- A fuzzy hit from `find_similar_law`. -/
structure SimilarHit where
  dok_id : String
  short_title : String
deriving DecidableEq, Repr

/-- The storage backend obtained from `_get_backend_service()`,
abstracted as a record of effectful methods.  `Except.error ()` models
the method raising; the `has_*` flags model the `hasattr` probes.  The
`get_sync_status` result is reduced to its truthiness (the service only
tests `if sync_status:`). -/
structure Backend where
  has_get_document : Bool := true
  has_find_document : Bool := true
  has_find_similar : Bool := true
  has_get_sections_batch : Bool := true
  has_list_structures : Bool := true
  has_find_related : Bool := true
  has_list_ministries : Bool := true
  has_list_legal_areas : Bool := true
  get_document : String → Except Unit (Option DocMeta)
  get_section : String → String → Except Unit (Option LawSection)
  get_sections_batch : String → List String → Except Unit (List LawSection)
  list_sections : String → Except Unit (List SectionSummary)
  list_structures : String → Except Unit (List StructRow)
  find_document : String → Except Unit (Option DocMeta)
  find_similar_law : String → ℚ → Except Unit (Option SimilarHit)
  find_related_regulations : String → Except Unit (List RegRow)
  list_ministries : Except Unit (List String)
  list_legal_areas : Except Unit (List String)
  search : String → Nat → Bool → Option String → Option String → Option String →
    Except Unit (List FtsRow)
  is_synced : Except Unit Bool
  get_sync_status : Except Unit Bool

/-- `LovdataService.LOV_ALIASES` (`service.py` lines 104–160). -/
def LOV_ALIASES : List (String × String) := [
  ("bustadoppføringslova", "LOV-1997-06-13-43"),
  ("buofl", "LOV-1997-06-13-43"),
  ("avhendingslova", "LOV-1992-07-03-93"),
  ("avhl", "LOV-1992-07-03-93"),
  ("plan-og-bygningsloven", "LOV-2008-06-27-71"),
  ("pbl", "LOV-2008-06-27-71"),
  ("byggherreforskriften", "FOR-2009-08-03-1028"),
  ("byggesaksforskriften", "FOR-2010-03-26-488"),
  ("sak10", "FOR-2010-03-26-488"),
  ("byggteknisk-forskrift", "FOR-2017-06-19-840"),
  ("tek17", "FOR-2017-06-19-840"),
  ("husleieloven", "LOV-1999-03-26-17"),
  ("husll", "LOV-1999-03-26-17"),
  ("kjøpsloven", "LOV-1988-05-13-27"),
  ("forbrukerkjøpsloven", "LOV-2002-06-21-34"),
  ("fkjl", "LOV-2002-06-21-34"),
  ("håndverkertjenesteloven", "LOV-1989-06-16-63"),
  ("hvtjl", "LOV-1989-06-16-63"),
  ("angrerettloven", "LOV-2014-06-20-27"),
  ("arbeidsmiljøloven", "LOV-2005-06-17-62"),
  ("aml", "LOV-2005-06-17-62"),
  ("ferieloven", "LOV-1988-04-29-21"),
  ("folketrygdloven", "LOV-1997-02-28-19"),
  ("ftrl", "LOV-1997-02-28-19"),
  ("forvaltningsloven", "LOV-1967-02-10"),
  ("fvl", "LOV-1967-02-10"),
  ("offentleglova", "LOV-2006-05-19-16"),
  ("offl", "LOV-2006-05-19-16"),
  ("kommuneloven", "LOV-2018-06-22-83"),
  ("koml", "LOV-2018-06-22-83"),
  ("tvisteloven", "LOV-2005-06-17-90"),
  ("tvl", "LOV-2005-06-17-90"),
  ("voldgiftsloven", "LOV-2004-05-14-25"),
  ("domstolloven", "LOV-1915-08-13-5"),
  ("anskaffelsesloven", "LOV-2016-06-17-73"),
  ("loa", "LOV-2016-06-17-73"),
  ("anskaffelsesforskriften", "FOR-2016-08-12-974"),
  ("foa", "FOR-2016-08-12-974"),
  ("skadeserstatningsloven", "LOV-1969-06-13-26"),
  ("skl", "LOV-1969-06-13-26"),
  ("avtaleloven", "LOV-1918-05-31-4"),
  ("avtl", "LOV-1918-05-31-4"),
  ("straffeloven", "LOV-2005-05-20-28"),
  ("strl", "LOV-2005-05-20-28"),
  ("personopplysningsloven", "LOV-2018-06-15-38"),
  ("popplyl", "LOV-2018-06-15-38")]

/-- `LovdataService.LOV_NAMES` (`service.py` lines 163–175). -/
def LOV_NAMES : List (String × String) := [
  ("LOV-1997-06-13-43",
    "Lov om avtalar med forbrukar om oppføring av ny bustad m.m. (bustadoppføringslova)"),
  ("LOV-1992-07-03-93", "Lov om avhending av fast eigedom (avhendingslova)"),
  ("LOV-2008-06-27-71", "Lov om planlegging og byggesaksbehandling (plan- og bygningsloven)"),
  ("LOV-2005-06-17-62",
    "Lov om arbeidsmiljø, arbeidstid og stillingsvern mv. (arbeidsmiljøloven)"),
  ("LOV-2005-06-17-90", "Lov om mekling og rettergang i sivile tvister (tvisteloven)"),
  ("LOV-1967-02-10", "Lov om behandlingsmåten i forvaltningssaker (forvaltningsloven)"),
  ("LOV-2002-06-21-34", "Lov om forbrukerkjøp (forbrukerkjøpsloven)"),
  ("LOV-1988-05-13-27", "Lov om kjøp (kjøpsloven)"),
  ("LOV-1918-05-31-4",
    "Lov om avslutning av avtaler, om fuldmagt og om ugyldige viljeserklæringer (avtaleloven)"),
  ("LOV-1969-06-13-26", "Lov om skadeserstatning (skadeserstatningsloven)"),
  ("LOV-2016-06-17-73", "Lov om offentlige anskaffelser (anskaffelsesloven)")]

/-- Dict lookup in a literal table. -/
def tableGet (t : List (String × String)) (k : String) : Option String :=
  (t.find? (fun e => e.1 = k)).map (fun e => e.2)

/-- `LovdataService._get_law_name`: `LOV_NAMES.get(lov_id, lov_id)`. -/
def getLawName (lovId : String) : String := (tableGet LOV_NAMES lovId).getD lovId

/-- `~3.5` chars per token: `estimate_tokens(text) = int(len(text) / 3.5)`
(`service.py` lines 86–88), modelled exactly as `⌊2·len/7⌋`. -/
def estimateTokens (text : String) : Nat := 2 * text.data.length / 7

/-- `int(max_tokens * CHARS_PER_TOKEN)` for an integer token budget. -/
def maxTokensToChars (n : Nat) : Nat := 7 * n / 2

/-- The tier-1 normalisation of `_resolve_id`:
`alias.lower().replace(" ", "-").replace("_", "-")`. -/
def normalizeAlias (aliasIn : String) : String :=
  pyReplace (pyReplace (pyLower aliasIn) " " "-") "_" "-"

/-- Tier 2 of `_resolve_id`: `backend._find_document(alias)` guarded by
`hasattr` and `try/except`; a hit needs a truthy `dok_id`. -/
def tier2Result (b : Backend) (aliasIn : String) : Option String :=
  if b.has_find_document then
    match b.find_document aliasIn with
    | .ok (some d) => if d.dok_id ≠ "" then some d.dok_id else none
    | _ => none
  else none

/-- Tier 3 of `_resolve_id`: fuzzy matching at threshold `0.4`, only
attempted for inputs of length ≥ `MIN_FUZZY_LENGTH = 8`, guarded by
`hasattr` and `try/except`. -/
def tier3Result (b : Backend) (aliasIn : String) : Option String :=
  if aliasIn.length ≥ 8 ∧ b.has_find_similar then
    match b.find_similar_law aliasIn (2 / 5) with
    | .ok (some s) => some s.dok_id
    | _ => none
  else none

/-- Tier 4 of `_resolve_id`: the input itself, uppercased when it
starts with one of `lov`/`LOV`/`for`/`FOR`. -/
def tier4Result (aliasIn : String) : String :=
  if pyStartsWith aliasIn "lov" || pyStartsWith aliasIn "LOV" ||
      pyStartsWith aliasIn "for" || pyStartsWith aliasIn "FOR" then
    pyUpper aliasIn
  else aliasIn

/-- `LovdataService._resolve_id` (`service.py` lines 182–234): blank
input short-circuits to `""`; then the four tiers — static alias table
on the normalised input, `_find_document`, fuzzy matching, and the
input itself. -/
def resolveId (b : Backend) (aliasIn : String) : String :=
  if isBlank aliasIn then ""
  else
    match tableGet LOV_ALIASES (normalizeAlias aliasIn) with
    | some v => v
    | none =>
      match tier2Result b aliasIn with
      | some v => v
      | none =>
        match tier3Result b aliasIn with
        | some v => v
        | none => tier4Result aliasIn

/-- `LovdataService._format_lovdata_url` (`service.py` lines 240–266). -/
def formatLovdataUrl (lovId : String) (paragraf : Option String) : String :=
  let path :=
    if pyStartsWith lovId "LOV-" then "lov/" ++ pyLower (strDrop lovId 4)
    else if pyStartsWith lovId "FOR-" then "forskrift/" ++ pyLower (strDrop lovId 4)
    else pyLower lovId
  let url := "https://lovdata.no/" ++ path
  if truthy paragraf then
    url ++ "/§" ++ pyStrip (lstripSectionMark (paragraf.getD ""))
  else url

/-- Does `\s+nr\s+\d+` (with `re.IGNORECASE`) match at the head of the
list? -/
def matchNrAt (l : List Char) : Bool :=
  decide (l.takeWhile Char.isWhitespace ≠ []) &&
  match l.dropWhile Char.isWhitespace with
  | n :: r :: rest =>
    (decide (n = 'n') || decide (n = 'N')) && (decide (r = 'r') || decide (r = 'R')) &&
    decide (rest.takeWhile Char.isWhitespace ≠ []) &&
    (match rest.dropWhile Char.isWhitespace with
     | d :: _ => d.isDigit
     | [] => false)
  | _ => false

/-- `re.sub(r"\s+nr\s+\d+.*$", "", paragraf, flags=re.IGNORECASE)`:
truncate at the leftmost occurrence of ` nr N`.  (`$`-before-final-
newline subtleties are elided: the call sites pass newline-free section
ids.) -/
def stripNrAux : List Char → List Char
  | [] => []
  | c :: rest => if matchNrAt (c :: rest) then [] else c :: stripNrAux rest

/-- The `"4-2 nr 1" → "4-2"` fallback rewrite of `_fetch_law_content`. -/
def stripNr (s : String) : String := ⟨stripNrAux s.data⟩

/-- `_SECTION_NOT_FOUND` sentinel (`service.py` line 45). -/
def SECTION_NOT_FOUND : String := "__SECTION_NOT_FOUND__"

/-- Truncation to a token budget: `content[:max_chars] + "\n\n... [avkortet]"`
when over budget (`if max_tokens:` is Python truthiness). -/
def truncateIfOver (content : String) (maxTokens : Option Nat) : String :=
  if truthyN maxTokens then
    let maxChars := maxTokensToChars (maxTokens.getD 0)
    if content.data.length > maxChars then strTake content maxChars ++ "\n\n... [avkortet]"
    else content
  else content

/-- Body text of a section: bold title block when the title is truthy,
then the content. -/
def sectionBody (s : LawSection) : String :=
  (if truthy s.title then "**" ++ s.title.getD "" ++ "**\n\n" else "") ++ s.content

/-- Sum of `estimated_tokens` over section summaries. -/
def sumTokens (l : List SectionSummary) : Nat := (l.map (fun s => s.estimated_tokens)).sum

/-- One row of the flat table of contents (`service.py` lines 716–725). -/
def flatTocRow (sec : SectionSummary) : String :=
  let title0 := orEmpty sec.title
  let title1 := if title0.data.length > 50 then strTake title0 47 ++ "..." else title0
  let title2 := pyReplace title1 "|" "\\|"
  "| § " ++ sec.section_id ++ " | " ++ title2 ++ " | " ++ commaFmt sec.estimated_tokens ++ " |"

/-- `LovdataService._format_flat_toc` (`service.py` lines 706–732). -/
def formatFlatToc (sections : List SectionSummary) : List String :=
  ["| Paragraf | Tittel | Tokens |", "|----------|--------|-------:|"]
    ++ (sections.take 100).map flatTocRow
    ++ (if sections.length > 100 then
          ["| ... | *" ++ Nat.repr (sections.length - 100) ++ " flere paragrafer* | "
            ++ commaFmt (sumTokens (sections.drop 100)) ++ " |"]
        else [])

/-- `f"{struct.get('structure_type')}:{struct.get('structure_id')}"` —
the dict key used for grouping sections under structures. -/
def structKeyOf (st : StructRow) : String :=
  pyShow st.structure_type ++ ":" ++ pyShow st.structure_id

/-- The innermost loop of `_format_hierarchical_toc` (lines 752–760):
the deepest (last) structure whose truthy address starts the section's
address. -/
def findStructKey (structures : List StructRow) (address : String) : Option String :=
  (structures.reverse.find? (fun st =>
    decide (orEmpty st.address ≠ "") && pyStartsWith address (orEmpty st.address))).map
    structKeyOf

/-- Append a section under a key in the insertion-ordered
`structure_sections` dict. -/
def addAssoc (m : List (String × List SectionSummary)) (k : String) (v : SectionSummary) :
    List (String × List SectionSummary) :=
  if m.any (fun e => e.1 = k) then
    m.map (fun e => if e.1 = k then (e.1, e.2 ++ [v]) else e)
  else m ++ [(k, [v])]

/-- `structure_sections.get(key, [])`. -/
def assocGet (m : List (String × List SectionSummary)) (k : String) : List SectionSummary :=
  ((m.find? (fun e => e.1 = k)).map (fun e => e.2)).getD []

/-- The grouping pass of `_format_hierarchical_toc`: sections assigned
to their matching structure, plus the orphans, in encounter order. -/
def assignSections (structures : List StructRow) (sections : List SectionSummary) :
    List (String × List SectionSummary) × List SectionSummary :=
  sections.foldl
    (fun acc sec =>
      match findStructKey structures (orEmpty sec.address) with
      | some k => (addAssoc acc.1 k sec, acc.2)
      | none => (acc.1, acc.2 ++ [sec]))
    ([], [])

/-- One section line under a structure heading. -/
def hierSecLine (indent : String) (sec : SectionSummary) : String :=
  let t0 := orEmpty sec.title
  let t1 := if t0.data.length > 35 then strTake t0 32 ++ "..." else t0
  indent ++ "  - § " ++ sec.section_id ++ ": " ++ t1 ++ " ("
    ++ Nat.repr sec.estimated_tokens ++ " tok)"

/-- Rendering of one structure with its sections (`service.py`
lines 768–803). -/
def hierStructLines (m : List (String × List SectionSummary)) (st : StructRow) : List String :=
  let indent :=
    if st.structure_type = some "del" then ""
    else if st.structure_type = some "kapittel" then "  "
    else "    "
  let pre : List String := if st.structure_type = some "del" then [""] else []
  let structSecs := assocGet m (structKeyOf st)
  pre ++ [indent ++ "**" ++ pyShow st.title ++ "**"]
    ++ (structSecs.take 8).map (hierSecLine indent)
    ++ (if structSecs.length > 8 then
          [indent ++ "  - *... og " ++ Nat.repr (structSecs.length - 8) ++ " flere ("
            ++ Nat.repr (sumTokens (structSecs.drop 8)) ++ " tok)*"]
        else [])

/-- `LovdataService._format_hierarchical_toc` (`service.py`
lines 734–816). -/
def formatHierarchicalToc (sections : List SectionSummary) (structures : List StructRow) :
    List String :=
  let assigned := assignSections structures sections
  (structures.map (hierStructLines assigned.1)).flatten
    ++ (if assigned.2 ≠ [] then
          ["", "**Andre paragrafer:**"]
            ++ (assigned.2.take 20).map (fun sec =>
                "  - § " ++ sec.section_id ++ " (" ++ Nat.repr sec.estimated_tokens ++ " tok)")
            ++ (if assigned.2.length > 20 then
                  ["  - *... og " ++ Nat.repr (assigned.2.length - 20) ++ " flere*"]
                else [])
        else [])

/-- The superseded-document banner of the table of contents. -/
def opphevetBanner : String :=
  "> **Denne loven/forskriften er opphevet.** Resultatene kan vaere utdaterte. Bruk `sok()` for a finne gjeldende regelverk."

/-- `LovdataService._format_table_of_contents` (`service.py`
lines 626–704). -/
def formatTableOfContents (doc : DocMeta) (sections : List SectionSummary)
    (structures : List StructRow) : String :=
  let title0 := firstTruthyD doc.title doc.short_title doc.dok_id
  let title := if doc.is_current then title0 else title0 ++ " (opphevet)"
  let metaLines : List String :=
    (if truthy doc.ministry then ["**Departement:** " ++ doc.ministry.getD ""] else [])
      ++ (if truthy doc.legal_area then ["**Rettsomrade:** " ++ doc.legal_area.getD ""] else [])
      ++ (if truthy doc.based_on then
            ["**Hjemmelslov:** " ++ formatBasedOn (doc.based_on.getD "")] else [])
      ++ (if doc.is_amendment then ["*Dette er en endringslov/-forskrift.*"] else [])
  let lines : List String :=
    ["### Innholdsfortegnelse: " ++ title, ""]
      ++ (if doc.is_current then [] else [opphevetBanner, ""])
      ++ ["**Totalt:** " ++ Nat.repr sections.length ++ " paragrafer (~"
          ++ commaFmt (sumTokens sections) ++ " tokens)"]
      ++ (if metaLines ≠ [] then "" :: metaLines else [])
      ++ [""]
      ++ (if structures ≠ [] then formatHierarchicalToc sections structures
          else formatFlatToc sections)
      ++ ["", "---", "", "**Bruk:**",
          "- Hent én paragraf: `lov('" ++ doc.dok_id ++ "', '1')` eller `forskrift(...)`",
          "- Begrens respons: `lov(..., max_tokens=2000)`", "",
          "*Tips: Hent spesifikke paragrafer for å spare tokens.*"]
  joinSep "\n" lines

/-! ## `service.py`: the query operations -/

/-- The document-exists check at the end of the section branch of
`_fetch_law_content` (lines 381–384). -/
def fetchDocCheck (b : Backend) (lovId : String) : Except Unit (Option String) := do
  let doc ← b.get_document lovId
  match doc with
  | some _ => pure (some SECTION_NOT_FOUND)
  | none => pure none

/-- The body of the `try:` block of `_fetch_law_content`
(`service.py` lines 342–398). -/
def fetchLawContentRaw (b : Backend) (lovId : String) (paragraf : Option String)
    (maxTokens : Option Nat) : Except Unit (Option String) :=
  if truthy paragraf then do
    let p := paragraf.getD ""
    let sec ← b.get_section lovId p
    match sec with
    | some s => pure (some (truncateIfOver (sectionBody s) maxTokens))
    | none =>
      let stripped := stripNr p
      if stripped ≠ p then do
        let sec2 ← b.get_section lovId stripped
        match sec2 with
        | some s =>
          pure (some (truncateIfOver
            (sectionBody s ++ "\n\n> *Merk: § " ++ p
              ++ " ble ikke funnet som egen seksjon. Viser hele § " ++ stripped
              ++ " som inneholder denne bestemmelsen.*") maxTokens))
        | none => fetchDocCheck b lovId
      else fetchDocCheck b lovId
  else do
    let doc ← b.get_document lovId
    match doc with
    | some d => do
      let sections ← b.list_sections lovId
      let structures ← if b.has_list_structures then b.list_structures lovId else pure []
      if sections ≠ [] then pure (some (formatTableOfContents d sections structures))
      else pure (some "*Dokument funnet, men ingen paragrafer i cache.*")
    | none => pure none

/-- `LovdataService._fetch_law_content`: the whole body is wrapped in
`try: … except Exception: …; return None`, so an exception from the
backend collapses to `None`. -/
def fetchLawContent (b : Backend) (lovId : String) (paragraf : Option String)
    (maxTokens : Option Nat) : Option String :=
  match fetchLawContentRaw b lovId paragraf maxTokens with
  | .ok v => v
  | .error _ => none

/-- `LovdataService._format_response` (`service.py` lines 818–854). -/
def formatResponse (lawName lawId : String) (paragraf : Option String) (content url : String)
    (isCurrent : Option Bool) : String :=
  let sectionHeader := if truthy paragraf then "§ " ++ paragraf.getD "" else "(hele loven)"
  let header := if isCurrent = some false then lawName ++ " (opphevet)" else lawName
  let warning :=
    if isCurrent = some false then
      "\n> **Denne loven/forskriften er opphevet.** Resultatene kan vaere utdaterte. Bruk `sok()` for a finne gjeldende regelverk.\n"
    else ""
  "## " ++ header ++ "\n\n**Paragraf:** " ++ sectionHeader ++ "\n**Lovdata ID:** " ++ lawId
    ++ "\n" ++ warning ++ "\n---\n\n" ++ content
    ++ "\n\n---\n\n**Kilde:** [" ++ url ++ "](" ++ url
    ++ ")\n**Lisens:** NLOD 2.0 - Norsk lisens for offentlige data\n"

/-- `LovdataService._format_fallback_response` (`service.py`
lines 856–885); it consults `get_sync_status`, which may itself
raise. -/
def formatFallbackResponse (b : Backend) (lawName lawId : String) (paragraf : Option String)
    (url : String) : Except Unit String := do
  let sectionHeader := if truthy paragraf then "§ " ++ paragraf.getD "" else "(hele loven)"
  let syncStatus ← b.get_sync_status
  let tipMsg :=
    if syncStatus then "*Lovdata er synkronisert, men denne loven ble ikke funnet i cache.*"
    else "*Tips: Kjør `python -m services.lovdata_sync` for å laste ned lovdata.*"
  pure ("## " ++ lawName ++ "\n\n**Paragraf:** " ++ sectionHeader ++ "\n**Lovdata ID:** "
    ++ lawId ++ "\n\n---\n\nLovteksten er ikke tilgjengelig i lokal cache.\n\n**Se fullstendig tekst på Lovdata:**\n["
    ++ url ++ "](" ++ url ++ ")\n\n---\n\n" ++ tipMsg
    ++ "\n**Lisens:** NLOD 2.0 - Norsk lisens for offentlige data\n")

/-- The pure remainder of `lookup_law` after the metadata probe: the
cached-content fetch and the three response shapes. -/
def lookupLawAfterMeta (b : Backend) (lovId : String) (paragraf : Option String)
    (maxTokens : Option Nat) (docMeta : Option DocMeta) : String :=
  let resolvedId := resolveId b lovId
  let lawName := getLawName resolvedId
  let url := formatLovdataUrl resolvedId paragraf
  let isCurrent : Option Bool := docMeta.map (fun d => d.is_current)
  let content := fetchLawContent b resolvedId paragraf maxTokens
  if content = some SECTION_NOT_FOUND then
    "**Feil:** § " ++ pyShow paragraf ++ " finnes ikke i " ++ lawName
      ++ ".\n\nBruk `lov(\"" ++ lovId
      ++ "\")` for å se innholdsfortegnelsen, eller `sok(\"" ++ pyShow paragraf
      ++ "\")` for å søke."
  else if truthy content then
    formatResponse lawName resolvedId paragraf (content.getD "") url isCurrent
  else
    "**Feil:** Fant ikke loven «" ++ lovId ++ "».\n\n**Tips:** Bruk `sok(\"" ++ lovId
      ++ "\")` for å søke, eller `liste()` for å se kjente aliaser.\n\nDu kan også bruke full Lovdata-ID fra søkeresultater, f.eks. `lov(\"lov/1999-03-26-17\", \"9-2\")`."

/-- `LovdataService.lookup_law` (`service.py` lines 268–323).  The
metadata probe `backend.get_document(resolved_id)` on line 294 is *not*
inside a `try:` block, hence the `Except` bind; everything after it is
pure. -/
def lookupLaw (b : Backend) (lovId : String) (paragraf : Option String)
    (maxTokens : Option Nat) : Except Unit String :=
  if isBlank lovId then .ok "**Feil:** Lov-ID kan ikke være tom. Oppgi lovnavn eller ID."
  else do
    let docMeta ← if b.has_get_document then b.get_document (resolveId b lovId) else pure none
    pure (lookupLawAfterMeta b lovId paragraf maxTokens docMeta)

/-- The pure remainder of `lookup_regulation` after the metadata
probe. -/
def lookupRegulationAfterMeta (b : Backend) (forskriftId : String) (paragraf : Option String)
    (maxTokens : Option Nat) (docMeta : Option DocMeta) : String :=
  let resolvedId := resolveId b forskriftId
  let regName := getLawName resolvedId
  let url := formatLovdataUrl resolvedId paragraf
  let isCurrent : Option Bool := docMeta.map (fun d => d.is_current)
  let content := fetchLawContent b resolvedId paragraf maxTokens
  if content = some SECTION_NOT_FOUND then
    "**Feil:** § " ++ pyShow paragraf ++ " finnes ikke i " ++ regName
      ++ ".\n\nBruk `forskrift(\"" ++ forskriftId
      ++ "\")` for å se innholdsfortegnelsen, eller `sok(\"" ++ pyShow paragraf
      ++ "\")` for å søke."
  else if truthy content then
    formatResponse regName resolvedId paragraf (content.getD "") url isCurrent
  else
    "**Feil:** Fant ikke forskriften «" ++ forskriftId ++ "».\n\n**Tips:** Bruk `sok(\""
      ++ forskriftId ++ "\")` for å søke, eller prøv fullt navn/ID."

/-- `LovdataService.lookup_regulation` (`service.py` lines 887–938):
same shape as `lookup_law` but with *no* blank-id validation. -/
def lookupRegulation (b : Backend) (forskriftId : String) (paragraf : Option String)
    (maxTokens : Option Nat) : Except Unit String := do
  let docMeta ←
    if b.has_get_document then b.get_document (resolveId b forskriftId) else pure none
  pure (lookupRegulationAfterMeta b forskriftId paragraf maxTokens docMeta)

/-- The input-error messages of `lookup_sections_batch`. -/
def batchEmptyIdMsg : String := "**Feil:** Lov-ID kan ikke være tom."

def batchEmptyListMsg : String :=
  "**Feil:** Paragraf-listen kan ikke være tom. Oppgi minst én paragraf."

def batchTooManyMsg (n : Nat) : String :=
  "**Feil:** For mange paragrafer (" ++ Nat.repr n
    ++ "). Maks 50 per batch for å unngå for store responser. Del opp i flere kall."

/-- The `sorted(requested_ids - found_ids)` of `lookup_sections_batch`:
requested ids (as given) that are not among the returned section ids,
as a sorted set. -/
def notFoundIds (sectionIds found : List String) : List String :=
  sortByB strLeB ((sectionIds.filter (fun sid => ¬ found.contains sid)).dedup)

/-- One formatted section of the batch response (lines 499–516). -/
def batchSectionPart (maxTokens : Option Nat) (s : LawSection) : String :=
  (if truthy s.title then "### § " ++ s.section_id ++ ": " ++ s.title.getD "" ++ "\n\n"
   else "### § " ++ s.section_id ++ "\n\n")
    ++ truncateIfOver s.content maxTokens

/-- The part of the batch response before the not-found warning. -/
def batchFormatHead (lawName resolvedId : String) (sections : List LawSection)
    (totalTokens : Nat) : String :=
  "## " ++ lawName ++ "\n\n**Paragrafer:** "
    ++ joinSep ", " (sections.map (fun s => "§ " ++ s.section_id))
    ++ "\n**Lovdata ID:** " ++ resolvedId ++ "\n**Totalt:** ~" ++ commaFmt totalTokens
    ++ " tokens"

/-- The part of the batch response after the not-found warning. -/
def batchFormatTail (url : String) (parts : List String) : String :=
  "\n\n---\n\n" ++ joinSep "\n\n---\n\n" parts
    ++ "\n\n---\n\n**Kilde:** [" ++ url ++ "](" ++ url
    ++ ")\n**Lisens:** NLOD 2.0 - Norsk lisens for offentlige data\n"

/-- The success formatting of `lookup_sections_batch` (lines 490–540). -/
def batchFormat (lawName resolvedId url : String) (sectionIds : List String)
    (sections : List LawSection) (maxTokens : Option Nat) : String :=
  let found := sections.map (fun s => s.section_id)
  let notFound := notFoundIds sectionIds found
  let parts := sections.map (batchSectionPart maxTokens)
  let totalTokens := (parts.map estimateTokens).sum
  let notFoundWarning :=
    if notFound ≠ [] then "\n\n> **Ikke funnet:** " ++ joinSep ", " notFound else ""
  batchFormatHead lawName resolvedId sections totalTokens ++ notFoundWarning
    ++ batchFormatTail url parts

/-- The one-by-one fallback when the backend lacks
`get_sections_batch`. -/
def fetchOneByOne (b : Backend) (resolvedId : String) : List String →
    Except Unit (List LawSection)
  | [] => pure []
  | sid :: rest => do
    let s ← b.get_section resolvedId sid
    let others ← fetchOneByOne b resolvedId rest
    pure (match s with | some x => x :: others | none => others)

/-- The `try:` block of `lookup_sections_batch` (lines 474–540). -/
def batchTryBody (b : Backend) (resolvedId lawName url : String) (sectionIds : List String)
    (maxTokens : Option Nat) : Except Unit String := do
  let sections ←
    if b.has_get_sections_batch then b.get_sections_batch resolvedId sectionIds
    else fetchOneByOne b resolvedId sectionIds
  if sections = [] then
    formatFallbackResponse b lawName resolvedId (some (joinSep ", " sectionIds)) url
  else
    pure (batchFormat lawName resolvedId url sectionIds sections maxTokens)

/-- `LovdataService.lookup_sections_batch` (`service.py`
lines 438–546).  An exception escaping the `try:` block triggers the
fallback response — which consults `get_sync_status` un-guarded, so it
can itself raise. -/
def lookupSectionsBatch (b : Backend) (lovId : String) (sectionIds : List String)
    (maxTokens : Option Nat) : Except Unit String :=
  if isBlank lovId then .ok batchEmptyIdMsg
  else if sectionIds = [] then .ok batchEmptyListMsg
  else if sectionIds.length > 50 then .ok (batchTooManyMsg sectionIds.length)
  else
    let resolvedId := resolveId b lovId
    let lawName := getLawName resolvedId
    let url := formatLovdataUrl resolvedId none
    match batchTryBody b resolvedId lawName url sectionIds maxTokens with
    | .ok s => .ok s
    | .error _ =>
      formatFallbackResponse b lawName resolvedId (some (joinSep ", " sectionIds)) url

/-- The query normalisation of `search` (lines 969–976), byte-faithful
to the source: after the dash folding, the two quote replaces are the
identity, and the remaining line parses as one `replace` whose pattern
is the literal `, "'").replace(`. -/
def normalizeQuery (q : String) : String :=
  let q1 := pyStrip q
  let q2 := pyReplace (pyReplace q1 "–" "-") "—" "-"
  let q3 := pyReplace (pyReplace q2 "\"" "\"") "\"" "\""
  pyReplace q3 ", \"'\").replace(" "'"

/-- One rendered hit of `_format_fts_results` (dict branch,
lines 1056–1095). -/
def ftsResultLine (r : FtsRow) : String :=
  let docType := if r.doc_type = some "lov" then "Lov" else "Forskrift"
  let title := firstTruthyD r.title r.short_title r.dok_id
  let snippet := pyReplace (pyReplace (orEmpty r.snippet) "<mark>" "**") "</mark>" "**"
  let sectionInfo := if truthy r.section_id then " § " ++ r.section_id.getD "" else ""
  let opphevetMarker := if r.is_current = some false then " (opphevet)" else ""
  let basedOnLine :=
    if docType = "Forskrift" ∧ truthy r.based_on then
      "\n**Hjemmelslov:** " ++ formatBasedOn (r.based_on.getD "")
    else ""
  let legalAreaLine := if truthy r.legal_area then " | *" ++ r.legal_area.getD "" ++ "*" else ""
  "### " ++ docType ++ ": " ++ title ++ opphevetMarker ++ sectionInfo ++ "\n**ID:** `"
    ++ r.dok_id ++ "`"
    ++ (if truthy r.section_id then " **Paragraf:** `" ++ r.section_id.getD "" ++ "`" else "")
    ++ legalAreaLine ++ basedOnLine ++ "\n\n" ++ snippet ++ "\n"

/-- `LovdataService._format_fts_results` (`service.py`
lines 1037–1115). -/
def formatFtsResults (query : String) (results : List FtsRow) : String :=
  let usedOrFallback := results.any (fun r => r.search_mode = some "or_fallback")
  let fallbackNote :=
    if usedOrFallback then
      "\n> **Merk:** Søk med alle ordene ga 0 treff. Viser resultater der minst ett av ordene finnes.\n> For mer presist søk, bruk `\"eksakt frase\"` eller `ord1 OR ord2` syntaks.\n\n"
    else ""
  "## Søkeresultater for \"" ++ query ++ "\"\n\nFant " ++ Nat.repr results.length
    ++ " treff (fulltekstsøk):\n" ++ fallbackNote ++ "\n"
    ++ joinSep "\n" (results.map ftsResultLine)
    ++ "\n\n---\n\n**Søk på Lovdata:** https://lovdata.no/sok?q="
    ++ pyReplace query " " "+" ++ "\n"

/-- The alias-matching loop of `search` (lines 998–1010): collects
`(id, name, url)` entries, breaking once `limit` is reached. -/
def aliasCollect (qLower : String) (limit : Nat) :
    List (String × String) → List (String × String × String) →
    List (String × String × String)
  | [], acc => acc
  | (a, lid) :: rest, acc =>
    let name := getLawName lid
    let acc' :=
      if (pyContains a qLower || pyContains (pyLower name) qLower)
          ∧ ¬ acc.any (fun r => r.1 = lid) then
        acc ++ [(lid, name, formatLovdataUrl lid none)]
      else acc
    if acc'.length ≥ limit then acc' else aliasCollect qLower limit rest acc'

/-- The alias-search fallback rendering of `search` (lines 997–1035). -/
def aliasSearch (query : String) (limit : Nat) : String :=
  let results := aliasCollect (pyLower query) limit LOV_ALIASES []
  if results = [] then
    "## Søkeresultater for \"" ++ query
      ++ "\"\n\nIngen treff i indekserte lover.\n\n**Tips:** Kjør `service.sync()` for å laste ned lovdata, eller søk direkte på Lovdata:\nhttps://lovdata.no/sok?q="
      ++ pyReplace query " " "+" ++ "\n"
  else
    "## Søkeresultater for \"" ++ query ++ "\"\n\nFant " ++ Nat.repr results.length
      ++ " treff (alias-søk):\n\n"
      ++ joinSep "\n" (results.map (fun r =>
          "- **" ++ r.2.1 ++ "**\n  ID: `" ++ r.1 ++ "`\n  [" ++ r.2.2 ++ "](" ++ r.2.2 ++ ")"))
      ++ "\n\n---\n\n*For fulltekstsøk, kjør `service.sync()` først.*\n**Søk på Lovdata:** https://lovdata.no/sok?q="
      ++ pyReplace query " " "+" ++ "\n"

/-- `LovdataService.search` (`service.py` lines 940–1035).  The
`self.is_synced()` probe is un-guarded; the FTS call is inside
`try: … except: …` and falls back to alias search. -/
def searchOp (b : Backend) (query : String) (limit : Nat) (excludeAmendments : Bool)
    (ministryFilter docTypeFilter legalAreaFilter : Option String) : Except Unit String :=
  if isBlank query then
    .ok "**Feil:** Søkestreng kan ikke være tom. Oppgi ett eller flere søkeord."
  else do
    let q := normalizeQuery query
    let synced ← b.is_synced
    let ftsOut : Option String :=
      if synced then
        match b.search q limit excludeAmendments ministryFilter docTypeFilter legalAreaFilter with
        | .ok results => if results ≠ [] then some (formatFtsResults q results) else none
        | .error _ => none
      else none
    match ftsOut with
    | some s => pure s
    | none => pure (aliasSearch q limit)

/-- `a or b or c` over three optional strings (used for the
related-regulation title). -/
def firstTruthy3 (a b c : Option String) : Option String :=
  if truthy a then a else if truthy b then b else c

/-- One related-regulation line (lines 1194–1202). -/
def relatedLine (reg : RegRow) : String :=
  let title := firstTruthy3 reg.short_title reg.title reg.dok_id
  "- **" ++ pyShow title ++ "**\n  ID: `" ++ orEmpty reg.dok_id ++ "`"
    ++ (if truthy reg.ministry then "\n  Departement: " ++ reg.ministry.getD "" else "")

/-- `LovdataService.get_related_regulations` (`service.py`
lines 1163–1208): every backend call is either guarded or absent, so
the operation never raises. -/
def getRelatedRegulations (b : Backend) (lovId : String) : String :=
  if isBlank lovId then "**Feil:** Lov-ID kan ikke vaere tom."
  else
    let resolvedId := resolveId b lovId
    if ¬ b.has_find_related then "**Feil:** Denne funksjonen krever Supabase-backend."
    else
      match b.find_related_regulations resolvedId with
      | .error _ => "**Feil:** Kunne ikke hente relaterte forskrifter for " ++ lovId ++ "."
      | .ok regs =>
        if regs = [] then
          "Ingen forskrifter funnet med hjemmel i **" ++ lovId ++ "** (`" ++ resolvedId ++ "`)."
        else
          joinSep "\n"
            (["## Forskrifter med hjemmel i " ++ lovId ++ "\n",
              "Fant " ++ Nat.repr regs.length ++ " forskrifter:\n"]
              ++ regs.map relatedLine
              ++ ["", "---", "*Bruk `forskrift('ID', 'paragraf')` for a sla opp en forskrift.*"])

/-- `LovdataService.list_ministries` (`service.py` lines 1210–1243). -/
def listMinistriesOp (b : Backend) : String :=
  if ¬ b.has_list_ministries then "**Feil:** Denne funksjonen krever Supabase-backend."
  else
    match b.list_ministries with
    | .error _ => "**Feil:** Kunne ikke hente departementsliste."
    | .ok ms =>
      if ms = [] then "Ingen departementer funnet. Data er kanskje ikke synkronisert."
      else
        joinSep "\n"
          (["## Departementer (" ++ Nat.repr ms.length ++ " stk)\n"]
            ++ ms.map (fun m => "- " ++ m)
            ++ ["", "---",
                "**Bruk med filter:** `sok('emne', departement='Klima')` eller `semantisk_sok('emne', ministry='Justis')`"])

/-- `LovdataService.list_legal_areas` (`service.py` lines 1245–1278). -/
def listLegalAreasOp (b : Backend) : String :=
  if ¬ b.has_list_legal_areas then "**Feil:** Denne funksjonen krever Supabase-backend."
  else
    match b.list_legal_areas with
    | .error _ => "**Feil:** Kunne ikke hente rettsområdeliste."
    | .ok la =>
      if la = [] then "Ingen rettsområder funnet. Data er kanskje ikke synkronisert."
      else
        joinSep "\n"
          (["## Rettsområder (" ++ Nat.repr la.length ++ " stk)\n"]
            ++ la.map (fun a => "- " ++ a)
            ++ ["", "---",
                "**Bruk med filter:** `sok('emne', rettsomrade='Erstatningsrett')` eller `semantisk_sok('emne', rettsomrade='Arbeidsliv')`"])

/-! ## `sqlite_backend.py`: `LovdataSyncService` store and sync layer

The two SQLite tables relevant to the claims are modelled as lists of
rows (row order never matters to the embedded queries). -/

/-- A `documents` row (columns relevant to reconciliation). -/
structure DocRowDB where
  dok_id : String
  doc_type : String
  is_current : Bool
deriving DecidableEq, Repr

/-- A `sections` row.  `content` and `char_count` are nullable columns
(`char_count` defaults to `0` in migrated databases but is always
written by `_insert_document`). -/
structure SectionRowDB where
  dok_id : String
  section_id : String
  title : Option String
  content : Option String
  address : Option String
  char_count : Option Nat
deriving DecidableEq, Repr

/-- `INSERT OR REPLACE INTO documents (dok_id, ref_id, …, based_on)`
(`sqlite_backend.py` lines 577–598): the column list omits
`is_current`, so the fresh row takes the column default `1`. -/
def upsertDocRow (db : List DocRowDB) (dokId docType : String) : List DocRowDB :=
  db.filter (fun r => r.dok_id ≠ dokId) ++ [⟨dokId, docType, true⟩]

/-- First `UPDATE` of `_mark_non_current`: documents of the type that
are current but missing from the archive lose `is_current`. -/
def mncStep1 (docType : String) (present : List String) (r : DocRowDB) : DocRowDB :=
  if r.doc_type = docType ∧ r.is_current = true ∧ ¬ present.contains r.dok_id then
    { r with is_current := false }
  else r

/-- Second `UPDATE` of `_mark_non_current`: non-current documents of
the type that are present again become current. -/
def mncStep2 (docType : String) (present : List String) (r : DocRowDB) : DocRowDB :=
  if r.doc_type = docType ∧ r.is_current = false ∧ present.contains r.dok_id then
    { r with is_current := true }
  else r

/-- `LovdataSyncService._mark_non_current` (`sqlite_backend.py`
lines 423–443): a no-op when the present set is empty; otherwise the
two sequential `UPDATE`s. -/
def markNonCurrent (docType : String) (present : List String) (db : List DocRowDB) :
    List DocRowDB :=
  if present = [] then db
  else (db.map (mncStep1 docType present)).map (mncStep2 docType present)

/-- The document-level effect of `_index_directory`
(`sqlite_backend.py` lines 373–421): upsert each successfully parsed
document (the `seen_dok_ids` set is exactly their ids; files that fail
to parse are skipped), then reconcile `is_current`. -/
def indexDirectoryDocs (docType : String) (parsedIds : List String) (db : List DocRowDB) :
    List DocRowDB :=
  markNonCurrent docType parsedIds
    (parsedIds.foldl (fun acc dokId => upsertDocRow acc dokId docType) db)

/-- One piece of the natural sort key of `list_sections`:
`(int(digits), letter.lower())` on a regex match, `(float("inf"),
piece.lower())` otherwise. -/
inductive SortPiece where
  | num (n : Nat) (letter : String)
  | inf (text : String)
deriving DecidableEq, Repr

/-- Decimal value of a digit run. -/
def natOfDigits (ds : List Char) : Nat :=
  ds.foldl (fun acc c => acc * 10 + (c.toNat - '0'.toNat)) 0

/-- `re.match(r"^(\d+)\s*([a-z]?)$", p.strip(), re.I)` and the key-piece
construction (`sqlite_backend.py` lines 960–965). -/
def parsePiece (p : String) : SortPiece :=
  let s := stripChars p.data
  let d := takeDigitsRun s
  if d.1 ≠ [] then
    match d.2.dropWhile Char.isWhitespace with
    | [] => .num (natOfDigits d.1) ""
    | [c] => if c.isAlpha then .num (natOfDigits d.1) ⟨[c.toLower]⟩ else .inf (pyLower p)
    | _ => .inf (pyLower p)
  else .inf (pyLower p)

/-- Python `<` on key pieces: an integer sorts before `float("inf")`,
ties compare the letter strings. -/
def pieceLt : SortPiece → SortPiece → Bool
  | .num n a, .num m b => n < m || (n == m && strLtB a.data b.data)
  | .num _ _, .inf _ => true
  | .inf _, .num _ _ => false
  | .inf a, .inf b => strLtB a.data b.data

/-- Python `<` on key lists (lexicographic; a strict prefix sorts
first). -/
def keyLt : List SortPiece → List SortPiece → Bool
  | [], [] => false
  | [], _ :: _ => true
  | _ :: _, [] => false
  | a :: as, b :: bs => if pieceLt a b then true else if pieceLt b a then false else keyLt as bs

/-- Python `str.split(".")` (an empty input yields `[""]`). -/
def splitOnDot : List Char → List (List Char)
  | [] => [[]]
  | c :: rest =>
    if c = '.' then [] :: splitOnDot rest
    else
      match splitOnDot rest with
      | p :: ps => (c :: p) :: ps
      | [] => [[c]]

/-- `sort_key` of `list_sections` (`sqlite_backend.py` lines 956–966):
split on `.` and `-`, parse each piece. -/
def sortKey (sectionId : String) : List SortPiece :=
  (splitOnDot (pyReplace sectionId "-" ".").data).map (fun p => parsePiece ⟨p⟩)

/-- The induced non-strict comparison under which the stable sort of
`sections.sort(key=sort_key)` orders summaries. -/
def secLe (a b : SectionSummary) : Bool := !keyLt (sortKey b.section_id) (sortKey a.section_id)

/-- The summary dict built for each row by `list_sections`
(`sqlite_backend.py` lines 942–953): `char_count = row["char_count"] or 0`,
`estimated_tokens = int(char_count / 3.5)`. -/
def summaryOfRow (r : SectionRowDB) : SectionSummary :=
  ⟨r.section_id, r.title, r.char_count.getD 0, 2 * (r.char_count.getD 0) / 7, r.address⟩

/-- The row-formatting and sorting core of
`LovdataSyncService.list_sections` (given the rows of the resolved
document). -/
def listSectionsDB (rows : List SectionRowDB) : List SectionSummary :=
  sortByB secLe (rows.map summaryOfRow)

/-- `char_count = row["char_count"] or row["content_len"] or 0` of
`get_section_size` (`sqlite_backend.py` line 1053). -/
def getSectionSizeCC (charCount contentLen : Option Nat) : Nat :=
  if truthyN charCount then charCount.getD 0
  else if truthyN contentLen then contentLen.getD 0
  else 0

/-- The result dict of `LovdataSyncService.get_section_size` for a
found row (`content_len` is SQL `LENGTH(content)`, characters of a
text value, `NULL` on `NULL`). -/
def getSectionSizeDB (r : SectionRowDB) : Nat × Nat :=
  let cc := getSectionSizeCC r.char_count (r.content.map (fun c => c.data.length))
  (cc, 2 * cc / 7)

/-- One `<article class="legalArticle">` of a document as extracted by
BeautifulSoup — the modelled input of `_parse_sections`. -/
structure RawArticle where
  valueText : Option String
  titleText : Option String
  leddTexts : List String
  wholeText : String
  address : Option String
deriving DecidableEq, Repr

/-- The per-article body of `_parse_sections` (`sqlite_backend.py`
lines 629–670): skip articles without a value span or with an empty
cleaned id; content is the `legalP` texts joined by blank lines, or
the whole article text; `char_count = len(content)`. -/
def parseOneSection (dokId : String) (a : RawArticle) : Option LawSection :=
  match a.valueText with
  | none => none
  | some v =>
    let sid := collapseWs (pyStrip (pyReplace v "§" ""))
    if sid = "" then none
    else
      let contentParts := if a.leddTexts ≠ [] then a.leddTexts else [a.wholeText]
      let content := joinSep "\n\n" contentParts
      some ⟨dokId, sid, a.titleText, content, a.address, content.data.length⟩

/-- `LovdataSyncService._parse_sections` over the article list of one
document. -/
def parseSectionsDoc (dokId : String) (articles : List RawArticle) : List LawSection :=
  articles.filterMap (parseOneSection dokId)

/-- `INSERT OR REPLACE INTO sections …` under the
`UNIQUE(dok_id, section_id)` constraint. -/
def insertSectionRow (rows : List SectionRowDB) (s : LawSection) : List SectionRowDB :=
  rows.filter (fun r => ¬ (r.dok_id = s.dok_id ∧ r.section_id = s.section_id))
    ++ [⟨s.dok_id, s.section_id, s.title, some s.content, s.address, some s.char_count⟩]

/-- The section-table effect of `_insert_document`
(`sqlite_backend.py` lines 600–618). -/
def insertDocumentSections (rows : List SectionRowDB) (dokId : String)
    (articles : List RawArticle) : List SectionRowDB :=
  (parseSectionsDoc dokId articles).foldl insertSectionRow rows

/-- `"lov" if dataset_name == "lover" else "forskrift"`. -/
def docTypeOf (datasetName : String) : String :=
  if datasetName = "lover" then "lov" else "forskrift"

/-- `_get_indexed_count` (`sqlite_backend.py` lines 360–367):
`COUNT(*)` of documents of the dataset's type. -/
def indexedCount (db : List DocRowDB) (datasetName : String) : Nat :=
  (db.filter (fun r => r.doc_type = docTypeOf datasetName)).length

/-- Abstract outcome of `sync_dataset`: either the early up-to-date
return (no download), or the streaming download/extract/index path. -/
inductive SyncOutcome where
  | upToDate (docs : Nat)
  | downloaded
deriving DecidableEq, Repr

/-- The freshness decision of `LovdataSyncService.sync_dataset`
(`sqlite_backend.py` lines 250–258): when not forced, both timestamps
known and `remote_modified <= local_modified`, return
`{"docs": count, "up_to_date": True}` without downloading; otherwise
proceed to the streaming download.  ISO timestamps are modelled as
naturals. -/
def syncDatasetDecision (force : Bool) (remoteModified localModified : Option Nat)
    (db : List DocRowDB) (datasetName : String) : SyncOutcome :=
  if !force && (match remoteModified, localModified with
      | some r, some l => decide (r ≤ l)
      | _, _ => false) then
    .upToDate (indexedCount db datasetName)
  else .downloaded

/-! ## Helper lemmas -/

theorem mem_insertStable {le : α → α → Bool} {x a : α} {l : List α} :
    a ∈ insertStable le x l ↔ a = x ∨ a ∈ l := by
  induction l with
  | nil => simp [insertStable]
  | cons y ys ih =>
    simp only [insertStable]
    split
    · simp only [List.mem_cons, ih]
      tauto
    · simp only [List.mem_cons]

theorem sortByB_go_mem {le : α → α → Bool} {a : α} :
    ∀ (l acc : List α), a ∈ l.foldl (fun acc x => insertStable le x acc) acc ↔
      a ∈ acc ∨ a ∈ l := by
  intro l
  induction l with
  | nil => simp
  | cons x xs ih =>
    intro acc
    simp only [List.foldl_cons, ih, mem_insertStable]
    simp; tauto

theorem mem_sortByB {le : α → α → Bool} {a : α} {l : List α} :
    a ∈ sortByB le l ↔ a ∈ l := by
  simp [sortByB, sortByB_go_mem]

theorem perm_insertStable (le : α → α → Bool) (x : α) (l : List α) :
    (insertStable le x l).Perm (x :: l) := by
  induction l with
  | nil => simp [insertStable]
  | cons y ys ih =>
    simp only [insertStable]
    split
    · exact (ih.cons y).trans (List.Perm.swap x y ys)
    · exact List.Perm.refl _

theorem perm_sortByB_go (le : α → α → Bool) :
    ∀ (l acc : List α), (l.foldl (fun acc x => insertStable le x acc) acc).Perm (acc ++ l) := by
  intro l
  induction l with
  | nil => simp
  | cons x xs ih =>
    intro acc
    simp only [List.foldl_cons]
    refine (ih (insertStable le x acc)).trans ?_
    refine (List.Perm.append ((perm_insertStable le x acc)) (List.Perm.refl xs)).trans ?_
    exact List.perm_middle.symm

theorem perm_sortByB (le : α → α → Bool) (l : List α) : (sortByB le l).Perm l := by
  simpa [sortByB] using perm_sortByB_go le l []

theorem pairwise_insertStable {le : α → α → Bool}
    (htot : ∀ a b, le a b = true ∨ le b a = true)
    (htrans : ∀ a b c, le a b = true → le b c = true → le a c = true)
    {x : α} {l : List α} (hl : l.Pairwise (fun a b => le a b = true)) :
    (insertStable le x l).Pairwise (fun a b => le a b = true) := by
  induction l with
  | nil => simp [insertStable]
  | cons y ys ih =>
    rcases hl with _ | ⟨hy, hys⟩
    simp only [insertStable]
    split
    · rename_i hyx
      refine List.Pairwise.cons ?_ (ih hys)
      intro z hz
      rcases mem_insertStable.1 hz with rfl | hz'
      · exact hyx
      · exact hy z hz'
    · rename_i hyx
      have hxy : le x y = true := by
        rcases htot x y with h | h
        · exact h
        · exact absurd h hyx
      refine List.Pairwise.cons ?_ (List.Pairwise.cons hy hys)
      intro z hz
      rcases List.mem_cons.1 hz with rfl | hz'
      · exact hxy
      · exact htrans x y z hxy (hy z hz')

theorem pairwise_sortByB_go {le : α → α → Bool}
    (htot : ∀ a b, le a b = true ∨ le b a = true)
    (htrans : ∀ a b c, le a b = true → le b c = true → le a c = true) :
    ∀ (l acc : List α), acc.Pairwise (fun a b => le a b = true) →
      (l.foldl (fun acc x => insertStable le x acc) acc).Pairwise (fun a b => le a b = true) := by
  intro l
  induction l with
  | nil => intro acc h; simpa using h
  | cons x xs ih =>
    intro acc h
    exact ih _ (pairwise_insertStable htot htrans h)

theorem pairwise_sortByB {le : α → α → Bool}
    (htot : ∀ a b, le a b = true ∨ le b a = true)
    (htrans : ∀ a b c, le a b = true → le b c = true → le a c = true) (l : List α) :
    (sortByB le l).Pairwise (fun a b => le a b = true) :=
  pairwise_sortByB_go htot htrans l [] (by simp)

theorem occursIn_self (x : String) : OccursIn x x := ⟨[], [], by simp⟩

theorem occursIn_append_left {x s : String} (t : String) (h : OccursIn x s) :
    OccursIn x (t ++ s) := by
  obtain ⟨u, v, huv⟩ := h
  exact ⟨t.data ++ u, v, by simp [String.data_append, huv]⟩

theorem occursIn_append_right {x s : String} (t : String) (h : OccursIn x s) :
    OccursIn x (s ++ t) := by
  obtain ⟨u, v, huv⟩ := h
  exact ⟨u, v ++ t.data, by simp [String.data_append, huv]⟩

theorem occursIn_joinSep {x : String} (sep : String) :
    ∀ {l : List String}, x ∈ l → OccursIn x (joinSep sep l) := by
  intro l
  induction l with
  | nil => intro h; cases h
  | cons y ys ih =>
    intro h
    rcases List.mem_cons.1 h with rfl | hys
    · cases ys with
      | nil => exact occursIn_self x
      | cons z zs => exact occursIn_append_right _ (occursIn_append_right _ (occursIn_self x))
    · cases ys with
      | nil => cases hys
      | cons z zs =>
        exact occursIn_append_left _ (ih hys)

/-- `int(c / 3.5)` as computed by the code equals the specification's
`⌊c / 3.5⌋` over the rationals. -/
theorem estTokens_eq_floor (c : Nat) :
    2 * c / 7 = Nat.floor ((c : ℚ) / (7 / 2)) := by
  have h : ((c : ℚ) / (7 / 2)) = ((2 * c : ℕ) : ℚ) / ((7 : ℕ) : ℚ) := by
    push_cast
    ring
  rw [h, Nat.floor_div_nat]
  norm_cast

/-- A backend all of whose calls succeed with empty results. -/
def stubBackend : Backend where
  get_document := fun _ => .ok none
  get_section := fun _ _ => .ok none
  get_sections_batch := fun _ _ => .ok []
  list_sections := fun _ => .ok []
  list_structures := fun _ => .ok []
  find_document := fun _ => .ok none
  find_similar_law := fun _ _ => .ok none
  find_related_regulations := fun _ => .ok []
  list_ministries := .ok []
  list_legal_areas := .ok []
  search := fun _ _ _ _ _ _ => .ok []
  is_synced := .ok false
  get_sync_status := .ok false

/-- A backend every one of whose calls raises. -/
def throwingBackend : Backend where
  get_document := fun _ => .error ()
  get_section := fun _ _ => .error ()
  get_sections_batch := fun _ _ => .error ()
  list_sections := fun _ => .error ()
  list_structures := fun _ => .error ()
  find_document := fun _ => .error ()
  find_similar_law := fun _ _ => .error ()
  find_related_regulations := fun _ => .error ()
  list_ministries := .error ()
  list_legal_areas := .error ()
  search := fun _ _ _ _ _ _ => .error ()
  is_synced := .error ()
  get_sync_status := .error ()

/-! ## Claim C8: up-to-date sync short-circuit -/

/-- Claim C8: `sync_dataset` with `force=false`, a fetched remote
`lastModified` and a recorded local `last_modified ≥` it performs no
archive download and returns `{docs: N, up_to_date: true}` with `N` the
indexed count of the dataset's `doc_type`. -/
theorem sync_dataset_up_to_date (remoteM localM : Nat) (db : List DocRowDB) (ds : String)
    (h : remoteM ≤ localM) :
    syncDatasetDecision false (some remoteM) (some localM) db ds =
      SyncOutcome.upToDate (indexedCount db ds) := by
  simp [syncDatasetDecision, h]

theorem sync_dataset_up_to_date_witness :
    5 ≤ 7 ∧
      syncDatasetDecision false (some 5) (some 7)
        [⟨"lov/1999-03-26-17", "lov", true⟩, ⟨"forskrift/2007-05-31-590", "forskrift", true⟩]
        "lover" = SyncOutcome.upToDate 1 := by
  refine ⟨by decide, ?_⟩
  rw [sync_dataset_up_to_date 5 7 _ _ (by decide)]
  decide

/-! ## Claim C5: `char_count` and `estimated_tokens` invariants -/

/-- The stored-section invariant: a non-`NULL` content column is
accompanied by its exact character count. -/
def SectionInv (r : SectionRowDB) : Prop :=
  ∀ c, r.content = some c → r.char_count = some c.data.length

theorem parse_char_count (dokId : String) (articles : List RawArticle) :
    ∀ s ∈ parseSectionsDoc dokId articles, s.char_count = s.content.data.length := by
  intro s hs
  obtain ⟨a, _, ha⟩ := List.mem_filterMap.1 hs
  unfold parseOneSection at ha
  rcases a with ⟨v, t, ledd, whole, addr⟩
  cases v with
  | none => cases ha
  | some v =>
    simp only at ha
    split at ha
    · cases ha
    · cases ha
      rfl

theorem foldl_insert_inv :
    ∀ (secs : List LawSection), (∀ s ∈ secs, s.char_count = s.content.data.length) →
    ∀ (rows : List SectionRowDB), (∀ r ∈ rows, SectionInv r) →
    ∀ r ∈ secs.foldl insertSectionRow rows, SectionInv r := by
  intro secs
  induction secs with
  | nil => intro _ rows hrows; simpa using hrows
  | cons s ss ih =>
    intro hsecs rows hrows
    simp only [List.foldl_cons]
    refine ih (fun t ht => hsecs t (List.mem_cons_of_mem _ ht)) _ ?_
    intro r hr
    rcases List.mem_append.1 hr with hfil | hnew
    · exact hrows r (List.mem_filter.1 hfil).1
    · rcases List.mem_singleton.1 hnew with rfl
      intro c hc
      cases hc
      have := hsecs s (List.mem_cons_self s ss)
      simp [this]

theorem insert_keeps_inv (rows : List SectionRowDB) (dokId : String)
    (articles : List RawArticle) (hrows : ∀ r ∈ rows, SectionInv r) :
    ∀ r ∈ insertDocumentSections rows dokId articles, SectionInv r :=
  foldl_insert_inv (parseSectionsDoc dokId articles) (parse_char_count dokId articles) rows hrows

/-- Claim C5: every section written by an ingest commit stores
`char_count = len(content)`, and both `list_sections` and
`get_section_size` report `estimated_tokens = ⌊char_count / 3.5⌋`. -/
theorem section_size_invariant :
    (∀ (dokId : String) (articles : List RawArticle),
        ∀ s ∈ parseSectionsDoc dokId articles, s.char_count = s.content.data.length)
  ∧ (∀ (rows : List SectionRowDB) (dokId : String) (articles : List RawArticle),
        (∀ r ∈ rows, SectionInv r) →
        ∀ r ∈ insertDocumentSections rows dokId articles, SectionInv r)
  ∧ (∀ rows : List SectionRowDB, ∀ sm ∈ listSectionsDB rows,
        sm.estimated_tokens = Nat.floor ((sm.char_count : ℚ) / (7 / 2)))
  ∧ (∀ r : SectionRowDB,
        (getSectionSizeDB r).2 = Nat.floor (((getSectionSizeDB r).1 : ℚ) / (7 / 2))) := by
  refine ⟨parse_char_count, insert_keeps_inv, ?_, ?_⟩
  · intro rows sm hsm
    have hmem := mem_sortByB.1 hsm
    obtain ⟨r, _, rfl⟩ := List.mem_map.1 hmem
    simpa [summaryOfRow] using estTokens_eq_floor (r.char_count.getD 0)
  · intro r
    simpa [getSectionSizeDB] using
      estTokens_eq_floor (getSectionSizeCC r.char_count (r.content.map (fun c => c.data.length)))

theorem section_size_invariant_witness :
    ((summaryOfRow ⟨"lov/1999-03-26-17", "3-9", none, some "abcdefgh", none, some 8⟩)
        ∈ listSectionsDB [⟨"lov/1999-03-26-17", "3-9", none, some "abcdefgh", none, some 8⟩])
  ∧ (summaryOfRow ⟨"lov/1999-03-26-17", "3-9", none, some "abcdefgh", none, some 8⟩).estimated_tokens
      = Nat.floor
        (((summaryOfRow ⟨"lov/1999-03-26-17", "3-9", none, some "abcdefgh", none,
            some 8⟩).char_count : ℚ) / (7 / 2)) := by
  refine ⟨by decide, ?_⟩
  exact section_size_invariant.2.2.1
    [⟨"lov/1999-03-26-17", "3-9", none, some "abcdefgh", none, some 8⟩]
    (summaryOfRow ⟨"lov/1999-03-26-17", "3-9", none, some "abcdefgh", none, some 8⟩)
    (by decide)

/-! ## Claim C2: reconciliation of `is_current` -/

theorem upsertAll_mem (docType : String) :
    ∀ (ids : List String) (db : List DocRowDB),
      ∀ r ∈ ids.foldl (fun acc dokId => upsertDocRow acc dokId docType) db,
        (r ∈ db ∧ r.dok_id ∉ ids) ∨
          (r.dok_id ∈ ids ∧ r.is_current = true ∧ r.doc_type = docType) := by
  intro ids
  induction ids with
  | nil => intro db r hr; exact Or.inl ⟨hr, by simp⟩
  | cons i rest ih =>
    intro db r hr
    simp only [List.foldl_cons] at hr
    rcases ih (upsertDocRow db i docType) r hr with ⟨hmem, hnot⟩ | ⟨hin, hcur, hty⟩
    · rcases List.mem_append.1 hmem with hfil | hnew
      · have hf := List.mem_filter.1 hfil
        refine Or.inl ⟨hf.1, ?_⟩
        simp only [List.mem_cons, not_or]
        exact ⟨by simpa using hf.2, hnot⟩
      · rcases List.mem_singleton.1 hnew with rfl
        exact Or.inr ⟨by simp, rfl, rfl⟩
    · exact Or.inr ⟨List.mem_cons_of_mem _ hin, hcur, hty⟩

theorem upsertAll_keeps (docType : String) :
    ∀ (ids : List String) (db : List DocRowDB), ∀ r ∈ db,
      ∃ r' ∈ ids.foldl (fun acc dokId => upsertDocRow acc dokId docType) db,
        r'.dok_id = r.dok_id := by
  intro ids
  induction ids with
  | nil => intro db r hr; exact ⟨r, hr, rfl⟩
  | cons i rest ih =>
    intro db r hr
    simp only [List.foldl_cons]
    by_cases hid : r.dok_id = i
    · obtain ⟨r', hr', he⟩ :=
        ih (upsertDocRow db i docType) ⟨i, docType, true⟩ (by simp [upsertDocRow])
      exact ⟨r', hr', by rw [he, hid]⟩
    · refine ih (upsertDocRow db i docType) r ?_
      simp only [upsertDocRow, List.mem_append]
      exact Or.inl (List.mem_filter.2 ⟨hr, by simpa using hid⟩)

theorem mncStep1_dok (docType : String) (present : List String) (r : DocRowDB) :
    (mncStep1 docType present r).dok_id = r.dok_id := by
  unfold mncStep1; split <;> rfl

theorem mncStep2_dok (docType : String) (present : List String) (r : DocRowDB) :
    (mncStep2 docType present r).dok_id = r.dok_id := by
  unfold mncStep2; split <;> rfl

theorem mncStep1_ty (docType : String) (present : List String) (r : DocRowDB) :
    (mncStep1 docType present r).doc_type = r.doc_type := by
  unfold mncStep1; split <;> rfl

theorem mncStep2_ty (docType : String) (present : List String) (r : DocRowDB) :
    (mncStep2 docType present r).doc_type = r.doc_type := by
  unfold mncStep2; split <;> rfl

theorem mnc_absent_ty (docType : String) (present : List String) (r : DocRowDB)
    (h : r.dok_id ∉ present) (hty : r.doc_type = docType) :
    (mncStep2 docType present (mncStep1 docType present r)).is_current = false := by
  unfold mncStep1 mncStep2
  by_cases hc : r.is_current = true
  · simp [hty, hc, h]
  · simp only [Bool.not_eq_true] at hc
    simp [hty, hc, h]

theorem mnc_present_current (docType : String) (present : List String) (r : DocRowDB)
    (h : r.dok_id ∈ present) (hc : r.is_current = true) :
    mncStep2 docType present (mncStep1 docType present r) = r := by
  unfold mncStep1 mncStep2
  simp [h, hc]

/-- Claim C2 (amended): after a full sync that indexed at least one
document, a document row of the dataset's `doc_type` is current exactly
when its id was present, and every pre-existing row keeps a row. -/
theorem reconcile_current_iff_present (docType : String) (parsedIds : List String)
    (db : List DocRowDB) (hne : parsedIds ≠ []) :
    (∀ r ∈ indexDirectoryDocs docType parsedIds db,
        r.doc_type = docType → (r.is_current = true ↔ r.dok_id ∈ parsedIds))
  ∧ (∀ r ∈ db, ∃ r' ∈ indexDirectoryDocs docType parsedIds db, r'.dok_id = r.dok_id) := by
  unfold indexDirectoryDocs markNonCurrent
  simp only [if_neg hne]
  constructor
  · intro r hr hty
    obtain ⟨s1, hs1, rfl⟩ := List.mem_map.1 hr
    obtain ⟨s, hs, rfl⟩ := List.mem_map.1 hs1
    have hdok : (mncStep2 docType parsedIds (mncStep1 docType parsedIds s)).dok_id = s.dok_id := by
      rw [mncStep2_dok, mncStep1_dok]
    rcases upsertAll_mem docType parsedIds db s hs with ⟨_, hnot⟩ | ⟨hin, hcur, _⟩
    · have hsty : s.doc_type = docType := by
        rw [mncStep2_ty, mncStep1_ty] at hty; exact hty
      rw [mnc_absent_ty docType parsedIds s hnot hsty, hdok]
      simp only [Bool.false_eq_true, false_iff]
      exact hnot
    · rw [mnc_present_current docType parsedIds s hin hcur, hcur]
      simpa using hin
  · intro r hr
    obtain ⟨r', hr', he⟩ := upsertAll_keeps docType parsedIds db r hr
    refine ⟨_, List.mem_map.2 ⟨_, List.mem_map.2 ⟨r', hr', rfl⟩, rfl⟩, ?_⟩
    rw [mncStep2_dok, mncStep1_dok, he]

/-- Claim C2, counterexample: a "successful" sync whose archive yields
no documents (`present_ids = ∅`) leaves a stale `is_current=true` row,
so `{d : d.is_current} = P` fails at `P = ∅`. -/
theorem reconcile_empty_present_counterexample :
    indexDirectoryDocs "lov" [] [⟨"lov/1999-03-26-17", "lov", true⟩] =
        [⟨"lov/1999-03-26-17", "lov", true⟩]
  ∧ ¬ (∀ r ∈ indexDirectoryDocs "lov" [] [⟨"lov/1999-03-26-17", "lov", true⟩],
        r.doc_type = "lov" → (r.is_current = true ↔ r.dok_id ∈ ([] : List String))) := by
  refine ⟨by decide, ?_⟩
  intro h
  have := h ⟨"lov/1999-03-26-17", "lov", true⟩ (by decide) (by decide)
  simp at this

theorem reconcile_current_iff_present_witness :
    (["lov/1999-03-26-17"] ≠ ([] : List String))
  ∧ (∀ r ∈ indexDirectoryDocs "lov" ["lov/1999-03-26-17"]
        [⟨"lov/2005-06-17-62", "lov", true⟩],
        r.doc_type = "lov" → (r.is_current = true ↔ r.dok_id ∈ ["lov/1999-03-26-17"])) :=
  ⟨by decide,
    (reconcile_current_iff_present "lov" ["lov/1999-03-26-17"]
      [⟨"lov/2005-06-17-62", "lov", true⟩] (by decide)).1⟩

/-! ## Claim C4: the natural section-id order -/

theorem strEqOfData {a b : String} (h : a.data = b.data) : a = b := by
  cases a; cases b; exact congrArg String.mk h

theorem strLtB_irrefl : ∀ l : List Char, strLtB l l = false := by
  intro l
  induction l with
  | nil => rfl
  | cons c cs ih => simp [strLtB, lt_irrefl, ih]

theorem strLtB_trans :
    ∀ a b c : List Char, strLtB a b = true → strLtB b c = true → strLtB a c = true := by
  intro a
  induction a with
  | nil =>
    intro b c h1 h2
    cases b with
    | nil => cases h1
    | cons y ys =>
      cases c with
      | nil => simp [strLtB] at h2
      | cons z zs => rfl
  | cons x xs ih =>
    intro b c h1 h2
    cases b with
    | nil => simp [strLtB] at h1
    | cons y ys =>
      cases c with
      | nil => simp [strLtB] at h2
      | cons z zs =>
        simp only [strLtB] at h1 h2 ⊢
        by_cases hxy : x < y
        · by_cases hyz : y < z
          · simp [lt_trans hxy hyz]
          · by_cases hzy : z < y
            · simp [hyz, hzy] at h2
            · have hyez : y = z := le_antisymm (le_of_not_lt hzy) (le_of_not_lt hyz)
              subst hyez
              simp [hxy]
        · by_cases hyx : y < x
          · simp [hxy, hyx] at h1
          · have hxey : x = y := le_antisymm (le_of_not_lt hyx) (le_of_not_lt hxy)
            subst hxey
            simp only [hxy, if_false, lt_irrefl] at h1 ⊢
            by_cases hxz : x < z
            · simp [hxz]
            · by_cases hzx : z < x
              · simp [hxz, hzx] at h2
              · simp only [hxz, hzx, if_false] at h2 ⊢
                exact ih ys zs (by simpa using h1) (by simpa using h2)

theorem strLtB_connex :
    ∀ a b : List Char, strLtB a b = false → strLtB b a = false → a = b := by
  intro a
  induction a with
  | nil =>
    intro b h1 _
    cases b with
    | nil => rfl
    | cons y ys => cases h1
  | cons x xs ih =>
    intro b h1 h2
    cases b with
    | nil => cases h2
    | cons y ys =>
      simp only [strLtB] at h1 h2
      by_cases hxy : x < y
      · simp [hxy] at h1
      · by_cases hyx : y < x
        · simp [hxy, hyx] at h1 h2
        · have hxey : x = y := le_antisymm (le_of_not_lt hyx) (le_of_not_lt hxy)
          subst hxey
          simp only [lt_irrefl, if_false] at h1 h2
          rw [ih ys (by simpa using h1) (by simpa using h2)]

theorem pieceLt_irrefl : ∀ p : SortPiece, pieceLt p p = false := by
  intro p
  cases p with
  | num n a => simp [pieceLt, strLtB_irrefl]
  | inf a => simp [pieceLt, strLtB_irrefl]

theorem pieceLt_trans :
    ∀ p q r : SortPiece, pieceLt p q = true → pieceLt q r = true → pieceLt p r = true := by
  intro p q r h1 h2
  cases p with
  | num n a =>
    cases q with
    | num m b =>
      cases r with
      | num k c =>
        simp only [pieceLt, Bool.or_eq_true, decide_eq_true_eq, Bool.and_eq_true,
          beq_iff_eq] at h1 h2 ⊢
        rcases h1 with hnm | ⟨rfl, hab⟩
        · rcases h2 with hmk | ⟨rfl, hbc⟩
          · exact Or.inl (Nat.lt_trans hnm hmk)
          · exact Or.inl hnm
        · rcases h2 with hmk | ⟨rfl, hbc⟩
          · exact Or.inl hmk
          · exact Or.inr ⟨rfl, strLtB_trans _ _ _ hab hbc⟩
      | inf c => rfl
    | inf b =>
      cases r with
      | num k c => cases h2
      | inf c => rfl
  | inf a =>
    cases q with
    | num m b => cases h1
    | inf b =>
      cases r with
      | num k c => cases h2
      | inf c =>
        simp only [pieceLt] at h1 h2 ⊢
        exact strLtB_trans _ _ _ h1 h2

theorem pieceLt_connex :
    ∀ p q : SortPiece, pieceLt p q = false → pieceLt q p = false → p = q := by
  intro p q h1 h2
  cases p with
  | num n a =>
    cases q with
    | num m b =>
      by_cases hnm : n < m
      · simp [pieceLt, hnm] at h1
      · by_cases hmn : m < n
        · simp [pieceLt, hmn] at h2
        · have he : n = m := le_antisymm (le_of_not_lt hmn) (le_of_not_lt hnm)
          subst he
          simp [pieceLt, lt_irrefl] at h1 h2
          rw [strEqOfData (strLtB_connex a.data b.data h1 h2)]
    | inf b => cases h1
  | inf a =>
    cases q with
    | num m b => cases h2
    | inf b =>
      simp only [pieceLt] at h1 h2
      rw [strEqOfData (strLtB_connex a.data b.data h1 h2)]

theorem keyLt_irrefl : ∀ k : List SortPiece, keyLt k k = false := by
  intro k
  induction k with
  | nil => rfl
  | cons p ps ih => simp [keyLt, pieceLt_irrefl, ih]

theorem keyLt_trans :
    ∀ a b c : List SortPiece, keyLt a b = true → keyLt b c = true → keyLt a c = true := by
  intro a
  induction a with
  | nil =>
    intro b c h1 h2
    cases b with
    | nil => cases h1
    | cons q qs =>
      cases c with
      | nil => simp [keyLt] at h2
      | cons r rs => rfl
  | cons p ps ih =>
    intro b c h1 h2
    cases b with
    | nil => simp [keyLt] at h1
    | cons q qs =>
      cases c with
      | nil => simp [keyLt] at h2
      | cons r rs =>
        simp only [keyLt] at h1 h2 ⊢
        by_cases hpq : pieceLt p q = true
        · by_cases hqr : pieceLt q r = true
          · simp [pieceLt_trans p q r hpq hqr]
          · by_cases hrq : pieceLt r q = true
            · simp [hqr, hrq] at h2
            · have : q = r := pieceLt_connex q r (by simpa using hqr) (by simpa using hrq)
              subst this
              simp [hpq]
        · by_cases hqp : pieceLt q p = true
          · simp [hpq, hqp] at h1
          · have : p = q := pieceLt_connex p q (by simpa using hpq) (by simpa using hqp)
            subst this
            simp only [hpq, if_false, pieceLt_irrefl] at h1 ⊢
            by_cases hpr : pieceLt p r = true
            · simp [hpr]
            · by_cases hrp : pieceLt r p = true
              · simp [hpr, hrp] at h2
              · simp only [hpr, hrp, if_false] at h2 ⊢
                exact ih qs rs (by simpa using h1) (by simpa using h2)

theorem secLe_total : ∀ a b : SectionSummary, secLe a b = true ∨ secLe b a = true := by
  intro a b
  unfold secLe
  by_cases h1 : keyLt (sortKey b.section_id) (sortKey a.section_id) = true
  · right
    by_cases h2 : keyLt (sortKey a.section_id) (sortKey b.section_id) = true
    · exfalso
      have := keyLt_trans _ _ _ h1 h2
      simp [keyLt_irrefl] at this
    · simp [h2]
  · left
    simp [h1]

theorem keyLt_connex :
    ∀ a b : List SortPiece, keyLt a b = false → keyLt b a = false → a = b := by
  intro a
  induction a with
  | nil =>
    intro b h1 _
    cases b with
    | nil => rfl
    | cons q qs => cases h1
  | cons p ps ih =>
    intro b h1 h2
    cases b with
    | nil => cases h2
    | cons q qs =>
      simp only [keyLt] at h1 h2
      by_cases hpq : pieceLt p q = true
      · simp [hpq] at h1
      · by_cases hqp : pieceLt q p = true
        · simp [hpq, hqp] at h1 h2
        · have he : p = q := pieceLt_connex p q (by simpa using hpq) (by simpa using hqp)
          subst he
          simp only [pieceLt_irrefl, if_false] at h1 h2
          rw [ih qs (by simpa using h1) (by simpa using h2)]

theorem secLe_trans :
    ∀ a b c : SectionSummary, secLe a b = true → secLe b c = true → secLe a c = true := by
  intro a b c h1 h2
  unfold secLe at h1 h2 ⊢
  simp only [Bool.not_eq_eq_eq_not, Bool.not_true] at h1 h2 ⊢
  by_contra h3
  simp only [Bool.not_eq_false] at h3
  by_cases hcb : keyLt (sortKey c.section_id) (sortKey b.section_id) = true
  · simp [hcb] at h2
  · by_cases hbc : keyLt (sortKey b.section_id) (sortKey c.section_id) = true
    · have := keyLt_trans _ _ _ hbc h3
      simp [this] at h1
    · have he : sortKey b.section_id = sortKey c.section_id :=
        keyLt_connex _ _ (by simpa using hbc) (by simpa using hcb)
      rw [← he] at h3
      simp [h3] at h1

/-- Claim C4 (amended): the comparison by natural sort keys is a total
preorder (reflexive through totality, transitive, total) — not an
antisymmetric order on the id strings — under which the spec's chain
`"1" < "1a" < "2" < "3-1" < "10" < "10a"` holds strictly, and
`list_sections` returns exactly its summaries sorted by it. -/
theorem natural_sort_order :
    (∀ a b : SectionSummary, secLe a b = true ∨ secLe b a = true)
  ∧ (∀ a b c : SectionSummary, secLe a b = true → secLe b c = true → secLe a c = true)
  ∧ (keyLt (sortKey "1") (sortKey "1a") = true ∧ keyLt (sortKey "1a") (sortKey "2") = true ∧
      keyLt (sortKey "2") (sortKey "3-1") = true ∧
      keyLt (sortKey "3-1") (sortKey "10") = true ∧
      keyLt (sortKey "10") (sortKey "10a") = true)
  ∧ (∀ rows : List SectionRowDB,
      (listSectionsDB rows).Pairwise (fun a b => secLe a b = true)
    ∧ (listSectionsDB rows).Perm (rows.map summaryOfRow)) := by
  refine ⟨secLe_total, secLe_trans, by decide, ?_⟩
  intro rows
  exact ⟨pairwise_sortByB secLe_total secLe_trans _, perm_sortByB _ _⟩

/-- Claim C4, counterexample to "is a total order": the distinct ids
`"01"` and `"1"` have equal sort keys, so the order relation on
section ids is not antisymmetric. -/
theorem natural_sort_not_antisymmetric :
    keyLt (sortKey "01") (sortKey "1") = false ∧ keyLt (sortKey "1") (sortKey "01") = false ∧
      ("01" : String) ≠ "1" := by decide

theorem natural_sort_order_witness :
    secLe ⟨"1", none, 0, 0, none⟩ ⟨"2", none, 0, 0, none⟩ = true ∧
      secLe ⟨"2", none, 0, 0, none⟩ ⟨"10", none, 0, 0, none⟩ = true ∧
      secLe ⟨"1", none, 0, 0, none⟩ ⟨"10", none, 0, 0, none⟩ = true :=
  ⟨by decide, by decide,
    natural_sort_order.2.1 ⟨"1", none, 0, 0, none⟩ ⟨"2", none, 0, 0, none⟩
      ⟨"10", none, 0, 0, none⟩ (by decide) (by decide)⟩

/-! ## Claim C10: blank-id validation asymmetry -/

/-- Claim C10: `lookup_law` validates blank ids up front (for *every*
backend behaviour, throwing ones included, so no backend is
contacted), while `lookup_regulation` has no such validation: a blank
id flows through resolution (to `""`) and lookup, producing the
generic document-not-found message. -/
theorem empty_id_law_vs_regulation :
    (∀ (b : Backend) (lovId : String) (paragraf : Option String) (mt : Option Nat),
        isBlank lovId = true →
        lookupLaw b lovId paragraf mt =
          .ok "**Feil:** Lov-ID kan ikke være tom. Oppgi lovnavn eller ID.")
  ∧ (∀ (b : Backend) (fid : String), isBlank fid = true → b.get_document "" = .ok none →
        lookupRegulation b fid none none =
          .ok ("**Feil:** Fant ikke forskriften «" ++ fid ++ "».\n\n**Tips:** Bruk `sok(\""
            ++ fid ++ "\")` for å søke, eller prøv fullt navn/ID.")) := by
  constructor
  · intro b lovId paragraf mt h
    simp [lookupLaw, h]
  · intro b fid hblank hdoc
    have hres : resolveId b fid = "" := by simp [resolveId, hblank]
    unfold lookupRegulation
    rw [hres]
    cases hflag : b.has_get_document <;>
      simp [hflag, hdoc, lookupRegulationAfterMeta, hres, fetchLawContent, fetchLawContentRaw,
        truthy, SECTION_NOT_FOUND, Bind.bind, Except.bind, Pure.pure, Except.pure]

theorem empty_id_law_vs_regulation_witness :
    lookupLaw throwingBackend "   " none none =
        .ok "**Feil:** Lov-ID kan ikke være tom. Oppgi lovnavn eller ID."
  ∧ lookupRegulation stubBackend "" none none =
        .ok ("**Feil:** Fant ikke forskriften «».\n\n**Tips:** Bruk `sok(\"\")` for å søke, eller prøv fullt navn/ID.") :=
  ⟨empty_id_law_vs_regulation.1 throwingBackend "   " none none (by decide),
    by
      have h := empty_id_law_vs_regulation.2 stubBackend "" (by decide) rfl
      simpa using h⟩


/-! ## Claim C3: batch lookup boundaries and the not-found report -/

/-- A backend returning one fixed section for batch fetches. -/
def batchWitnessBackend : Backend :=
  { stubBackend with
    get_sections_batch := fun _ _ => .ok [⟨"lov/2005-06-17-62", "1", none, "x", none, 1⟩] }

/-- Claim C3: `lookup_sections_batch` rejects an empty section list
and more than 50 sections with input-error messages; a nonempty list
of at most 50 (in particular exactly 50) is accepted and forwarded to
the backend, and every requested id that is not among the returned
sections occurs in the response (in the not-found report). -/
theorem lookup_batch_boundaries :
    (∀ (b : Backend) (lovId : String) (mt : Option Nat), isBlank lovId = false →
        lookupSectionsBatch b lovId [] mt = .ok batchEmptyListMsg)
  ∧ (∀ (b : Backend) (lovId : String) (ids : List String) (mt : Option Nat),
        isBlank lovId = false → ids.length > 50 →
        lookupSectionsBatch b lovId ids mt = .ok (batchTooManyMsg ids.length))
  ∧ (∀ (b : Backend) (lovId : String) (ids : List String) (mt : Option Nat)
        (secs : List LawSection),
        isBlank lovId = false → ids ≠ [] → ids.length ≤ 50 →
        b.has_get_sections_batch = true →
        b.get_sections_batch (resolveId b lovId) ids = .ok secs → secs ≠ [] →
        lookupSectionsBatch b lovId ids mt =
          .ok (batchFormat (getLawName (resolveId b lovId)) (resolveId b lovId)
            (formatLovdataUrl (resolveId b lovId) none) ids secs mt)
      ∧ ∀ sid ∈ ids, sid ∉ secs.map (fun s => s.section_id) →
          OccursIn sid (batchFormat (getLawName (resolveId b lovId)) (resolveId b lovId)
            (formatLovdataUrl (resolveId b lovId) none) ids secs mt)) := by
  refine ⟨?_, ?_, ?_⟩
  · intro b lovId mt h
    simp [lookupSectionsBatch, h]
  · intro b lovId ids mt h hlen
    have hne : ids ≠ [] := by
      intro he; rw [he] at hlen; simp at hlen
    simp [lookupSectionsBatch, h, hne, hlen]
  · intro b lovId ids mt secs h hne hlen hflag hbatch hsecs
    have hnot : ¬ ids.length > 50 := by omega
    have hmain : lookupSectionsBatch b lovId ids mt =
        .ok (batchFormat (getLawName (resolveId b lovId)) (resolveId b lovId)
          (formatLovdataUrl (resolveId b lovId) none) ids secs mt) := by
      unfold lookupSectionsBatch
      rw [h, if_neg (by simp), if_neg hne, if_neg hnot]
      unfold batchTryBody
      simp [hflag, hbatch, hsecs, Bind.bind, Except.bind, Pure.pure, Except.pure]
    refine ⟨hmain, ?_⟩
    intro sid hmem hnf
    have h1 : sid ∈ notFoundIds ids (secs.map (fun s => s.section_id)) := by
      unfold notFoundIds
      rw [mem_sortByB, List.mem_dedup, List.mem_filter]
      refine ⟨hmem, ?_⟩
      simpa using hnf
    have h2 : notFoundIds ids (secs.map (fun s => s.section_id)) ≠ [] := by
      intro he; rw [he] at h1; cases h1
    show OccursIn sid
      (batchFormatHead (getLawName (resolveId b lovId)) (resolveId b lovId) secs
          ((secs.map (batchSectionPart mt)).map estimateTokens).sum
        ++ (if notFoundIds ids (secs.map (fun s => s.section_id)) ≠ [] then
              "\n\n> **Ikke funnet:** "
                ++ joinSep ", " (notFoundIds ids (secs.map (fun s => s.section_id)))
            else "")
        ++ batchFormatTail (formatLovdataUrl (resolveId b lovId) none)
            (secs.map (batchSectionPart mt)))
    rw [if_pos h2]
    exact occursIn_append_right _
      (occursIn_append_left _ (occursIn_append_left _ (occursIn_joinSep ", " h1)))

theorem lookup_batch_boundaries_witness :
    lookupSectionsBatch stubBackend "aml" [] none = .ok batchEmptyListMsg
  ∧ lookupSectionsBatch stubBackend "aml" (List.replicate 51 "1") none =
      .ok (batchTooManyMsg 51)
  ∧ OccursIn "2"
      (batchFormat (getLawName (resolveId batchWitnessBackend "aml"))
        (resolveId batchWitnessBackend "aml")
        (formatLovdataUrl (resolveId batchWitnessBackend "aml") none)
        ["1", "2"] [⟨"lov/2005-06-17-62", "1", none, "x", none, 1⟩] none) := by
  refine ⟨lookup_batch_boundaries.1 stubBackend "aml" none (by decide), ?_, ?_⟩
  · have h := lookup_batch_boundaries.2.1 stubBackend "aml" (List.replicate 51 "1") none
      (by decide) (by decide)
    simpa using h
  · exact (lookup_batch_boundaries.2.2 batchWitnessBackend "aml" ["1", "2"] none
      [⟨"lov/2005-06-17-62", "1", none, "x", none, 1⟩] (by decide) (by decide) (by decide)
      (by decide) rfl (by decide)).2 "2" (by decide) (by decide)


/-! ## Claim C1: the query engine and exceptions -/

/-- Did the modelled Python call return normally? -/
def isOkE : Except Unit α → Bool
  | .ok _ => true
  | .error _ => false

/-- Claim C1 (amended): each fallible query operation returns a
formatted text string provided its *un-guarded* backend call does not
throw — `get_document` (metadata probe) for `lookup_law` /
`lookup_regulation`, `get_sync_status` (fallback response) for
`lookup_sections_batch`, `is_synced` for `search`.  All other backend
errors are absorbed by `try/except` blocks.  (`get_related_regulations`,
`list_ministries` and `list_legal_areas` guard every backend call and
are embedded as total `String`-valued functions.) -/
theorem query_engine_no_raise :
    (∀ (b : Backend) (lovId : String) (p : Option String) (mt : Option Nat),
        (b.has_get_document = true → isOkE (b.get_document (resolveId b lovId)) = true) →
        isOkE (lookupLaw b lovId p mt) = true)
  ∧ (∀ (b : Backend) (fid : String) (p : Option String) (mt : Option Nat),
        (b.has_get_document = true → isOkE (b.get_document (resolveId b fid)) = true) →
        isOkE (lookupRegulation b fid p mt) = true)
  ∧ (∀ (b : Backend) (lovId : String) (ids : List String) (mt : Option Nat),
        isOkE b.get_sync_status = true →
        isOkE (lookupSectionsBatch b lovId ids mt) = true)
  ∧ (∀ (b : Backend) (q : String) (lim : Nat) (ex : Bool) (mf df lf : Option String),
        isOkE b.is_synced = true →
        isOkE (searchOp b q lim ex mf df lf) = true) := by
  refine ⟨?_, ?_, ?_, ?_⟩
  · intro b lovId p mt hdoc
    unfold lookupLaw
    by_cases hb : isBlank lovId = true
    · simp [hb, isOkE]
    · rw [if_neg hb]
      cases hflag : b.has_get_document with
      | false =>
        simp [hflag, Bind.bind, Except.bind, Pure.pure, Except.pure, isOkE]
      | true =>
        have hok := hdoc hflag
        cases hg : b.get_document (resolveId b lovId) with
        | error e => rw [hg] at hok; simp [isOkE] at hok
        | ok v =>
          simp [hflag, hg, Bind.bind, Except.bind, Pure.pure, Except.pure, isOkE]
  · intro b fid p mt hdoc
    unfold lookupRegulation
    cases hflag : b.has_get_document with
    | false =>
      simp [hflag, Bind.bind, Except.bind, Pure.pure, Except.pure, isOkE]
    | true =>
      have hok := hdoc hflag
      cases hg : b.get_document (resolveId b fid) with
      | error e => rw [hg] at hok; simp [isOkE] at hok
      | ok v =>
        simp [hflag, hg, Bind.bind, Except.bind, Pure.pure, Except.pure, isOkE]
  · intro b lovId ids mt hsync
    unfold lookupSectionsBatch
    split
    · rfl
    · split
      · rfl
      · split
        · rfl
        · have hfb : ∀ (lawName lawId : String) (pg : Option String) (url : String),
              isOkE (formatFallbackResponse b lawName lawId pg url) = true := by
            intro lawName lawId pg url
            unfold formatFallbackResponse
            cases hs : b.get_sync_status with
            | error e => rw [hs] at hsync; cases hsync
            | ok v => simp [hs, Bind.bind, Except.bind, isOkE, Pure.pure, Except.pure]
          cases ht : batchTryBody b (resolveId b lovId) (getLawName (resolveId b lovId))
              (formatLovdataUrl (resolveId b lovId) none) ids mt with
          | ok s => simp [ht, isOkE]
          | error e => simpa [ht] using hfb _ _ _ _
  · intro b q lim ex mf df lf hsync
    unfold searchOp
    split
    · rfl
    · cases hs : b.is_synced with
      | error e => rw [hs] at hsync; cases hsync
      | ok v =>
        simp only [hs, Bind.bind, Except.bind]
        split <;> simp [isOkE, Pure.pure, Except.pure]

/-- Claim C1, counterexample: with a backend whose calls throw,
`lookup_law` propagates the exception from its un-guarded
`backend.get_document(resolved_id)` metadata probe (line 294) instead
of returning a formatted message. -/
theorem query_engine_raises_counterexample :
    lookupLaw throwingBackend "somelaw" none none = Except.error () := rfl

theorem query_engine_no_raise_witness :
    isOkE (lookupLaw stubBackend "avhendingslova" (some "3-9") none) = true
  ∧ isOkE (lookupRegulation stubBackend "tek17" none none) = true
  ∧ isOkE (lookupSectionsBatch stubBackend "aml" ["1", "2"] none) = true
  ∧ isOkE (searchOp stubBackend "husleie" 20 true none none none) = true :=
  ⟨query_engine_no_raise.1 stubBackend "avhendingslova" (some "3-9") none (fun _ => by decide),
    query_engine_no_raise.2.1 stubBackend "tek17" none none (fun _ => by decide),
    query_engine_no_raise.2.2.1 stubBackend "aml" ["1", "2"] none (by decide),
    query_engine_no_raise.2.2.2 stubBackend "husleie" 20 true none none none (by decide)⟩

/-! ## Claim C9: four-tier identifier resolution -/

/-- Claim C9 (amended): the resolver first short-circuits blank input
to `""`; otherwise it tries, in order, the alias table on the
normalised input, the store lookup, fuzzy matching (only for inputs of
length ≥ 8 — it is skipped, and the fuzzy backend is never consulted,
below that), and finally returns the input as-is, uppercased exactly
when it starts with one of `lov`, `LOV`, `for`, `FOR`. -/
theorem resolver_four_tiers :
    (∀ (b : Backend) (x : String), isBlank x = true → resolveId b x = "")
  ∧ (∀ (b : Backend) (x v : String), isBlank x = false →
        tableGet LOV_ALIASES (normalizeAlias x) = some v → resolveId b x = v)
  ∧ (∀ (b : Backend) (x d : String), isBlank x = false →
        tableGet LOV_ALIASES (normalizeAlias x) = none → tier2Result b x = some d →
        resolveId b x = d)
  ∧ (∀ (b : Backend) (x v : String), isBlank x = false →
        tableGet LOV_ALIASES (normalizeAlias x) = none → tier2Result b x = none →
        tier3Result b x = some v → resolveId b x = v)
  ∧ (∀ (b : Backend) (x : String), isBlank x = false →
        tableGet LOV_ALIASES (normalizeAlias x) = none → tier2Result b x = none →
        tier3Result b x = none → resolveId b x = tier4Result x)
  ∧ (∀ x : String,
        ((pyStartsWith x "lov" || pyStartsWith x "LOV" || pyStartsWith x "for" ||
            pyStartsWith x "FOR") = true → tier4Result x = pyUpper x)
      ∧ ((pyStartsWith x "lov" || pyStartsWith x "LOV" || pyStartsWith x "for" ||
            pyStartsWith x "FOR") = false → tier4Result x = x))
  ∧ (∀ (b : Backend) (f : String → ℚ → Except Unit (Option SimilarHit)) (x : String),
        x.length < 8 → resolveId { b with find_similar_law := f } x = resolveId b x) := by
  refine ⟨?_, ?_, ?_, ?_, ?_, ?_, ?_⟩
  · intro b x h; simp [resolveId, h]
  · intro b x v h ht; simp [resolveId, h, ht]
  · intro b x d h ht h2; simp [resolveId, h, ht, h2]
  · intro b x v h ht h2 h3; simp [resolveId, h, ht, h2, h3]
  · intro b x h ht h2 h3; simp [resolveId, h, ht, h2, h3]
  · intro x
    constructor
    · intro h; simp [tier4Result, h]
    · intro h; simp [tier4Result, h]
  · intro b f x hlen
    have h3 : ∀ b' : Backend, b'.has_find_document = b.has_find_document →
        b'.find_document = b.find_document → tier2Result b' x = tier2Result b x := by
      intro b' h1 h2; simp [tier2Result, h1, h2]
    have ht3 : ∀ b' : Backend, tier3Result b' x = none := by
      intro b'
      simp [tier3Result, Nat.not_le.2 hlen]
    unfold resolveId
    rw [h3 { b with find_similar_law := f } rfl rfl, ht3 { b with find_similar_law := f }, ht3 b]

/-- Claim C9, counterexample: a whitespace-only input is not "returned
as-is" by tier 4 — the resolver short-circuits every blank input to
the empty string before the tiers run. -/
theorem resolver_blank_counterexample :
    resolveId stubBackend " " = "" ∧ (" " : String) ≠ "" := ⟨by decide, by decide⟩

theorem resolver_four_tiers_witness :
    resolveId stubBackend "avhendingslova" = "LOV-1992-07-03-93"
  ∧ resolveId stubBackend "unknown-name" = "unknown-name"
  ∧ resolveId { stubBackend with find_similar_law := fun _ _ => .error () } "husleie" =
      resolveId stubBackend "husleie" :=
  ⟨resolver_four_tiers.2.1 stubBackend "avhendingslova" "LOV-1992-07-03-93" (by decide)
      (by decide),
    by
      have h := resolver_four_tiers.2.2.2.2.1 stubBackend "unknown-name" (by decide) (by decide)
        rfl rfl
      rwa [(resolver_four_tiers.2.2.2.2.2.1 "unknown-name").2 (by decide)] at h,
    resolver_four_tiers.2.2.2.2.2.2 stubBackend (fun _ _ => .error ()) "husleie" (by decide)⟩

/-! ## Claim C7: the retry policy -/

/-- `resolveOrN` with a positive default never yields `0`. -/
theorem resolveOrN_pos (v : Option Nat) : 0 < resolveOrN v defaultMaxAttempts := by
  cases v with
  | none => decide
  | some n =>
    by_cases h : n = 0
    · simp [resolveOrN, h, defaultMaxAttempts]
    · simp [resolveOrN, h]
      omega

/-- Claim C7 (amended): `classify_error` marks timeouts, network errors
and HTTP 500/502/503/504 transient, HTTP 429 rate-limited (carrying
`Retry-After`), every other HTTP status — including all other 4xx *and*
all other 5xx such as 501 — permanent, plus JWT/auth and `23505`
uniqueness API errors permanent.  `with_retry` raises a permanent error
after a single call with no sleep; with default knobs it makes at most
3 attempts, sleeping `min(0.5·2^n, 30)` (with jitter) between transient
attempts; a rate-limited error with nonzero `Retry-After` sleeps
`min(retry_after, 30)` (with jitter) instead; every backoff is capped
at `backoff_max`. -/
theorem retry_policy :
    (classifyError .timeout = .transient ∧ classifyError .connectError = .transient)
  ∧ (∀ ra, classifyError (.httpStatus 500 ra) = .transient
      ∧ classifyError (.httpStatus 502 ra) = .transient
      ∧ classifyError (.httpStatus 503 ra) = .transient
      ∧ classifyError (.httpStatus 504 ra) = .transient)
  ∧ (∀ ra, classifyError (.httpStatus 429 ra) = .rateLimited ra)
  ∧ (∀ s ra, 400 ≤ s → s < 500 → s ≠ 429 → classifyError (.httpStatus s ra) = .permanent)
  ∧ (∀ code msg, pyContains (pyUpper msg) "JWT" = true →
      classifyError (.apiError code msg) = .permanent)
  ∧ (∀ msg, classifyError (.apiError "23505" msg) = .permanent)
  ∧ (∀ (ma : Option Nat) (bb bm : Option ℚ) (j : Bool) (behav : Nat → CallOutcome Unit)
        (rand : Nat → ℚ), behav 0 = .errSup .permanent →
      withRetry ma bb bm j behav rand = ⟨.error (.sup .permanent), 1, []⟩)
  ∧ (∀ (ma : Option Nat) (bb bm : Option ℚ) (j : Bool) (behav : Nat → CallOutcome Unit)
        (rand : Nat → ℚ) (e : PyExc), behav 0 = .errRaw e → classifyError e = .permanent →
      withRetry ma bb bm j behav rand = ⟨.error (.sup .permanent), 1, []⟩)
  ∧ (∀ (j : Bool) (behav : Nat → CallOutcome Unit) (rand : Nat → ℚ) (a : Unit),
      behav 0 = .errSup .transient → behav 1 = .ok a →
      withRetry none none none j behav rand =
        ⟨.ok a, 2, [jittered j (expBackoff (1 / 2) 30 0) (rand 0)]⟩)
  ∧ (∀ (j : Bool) (behav : Nat → CallOutcome Unit) (rand : Nat → ℚ),
      (∀ n, n < 3 → behav n = .errSup .transient) →
      withRetry none none none j behav rand =
        ⟨.error (.sup .transient), 3,
          [jittered j (expBackoff (1 / 2) 30 0) (rand 0),
            jittered j (expBackoff (1 / 2) 30 1) (rand 1)]⟩)
  ∧ (∀ (j : Bool) (behav : Nat → CallOutcome Unit) (rand : Nat → ℚ) (ra : Nat) (a : Unit),
      behav 0 = .errSup (.rateLimited (some ra)) → behav 1 = .ok a → ra ≠ 0 →
      withRetry none none none j behav rand =
        ⟨.ok a, 2, [jittered j (min (ra : ℚ) 30) (rand 0)]⟩)
  ∧ (∀ (base cap : ℚ) (n : Nat), expBackoff base cap n ≤ cap) := by
  refine ⟨⟨rfl, rfl⟩, fun ra => ⟨rfl, rfl, rfl, rfl⟩, fun ra => rfl, ?_, ?_, ?_, ?_, ?_,
    ?_, ?_, ?_, fun base cap n => min_le_right _ _⟩
  · intro s ra h1 h2 h3
    have e429 : (s == 429) = false := by simp [h3]
    have e500 : (s == 500) = false := by simp; omega
    have e502 : (s == 502) = false := by simp; omega
    have e503 : (s == 503) = false := by simp; omega
    have e504 : (s == 504) = false := by simp; omega
    simp [classifyError, e429, e500, e502, e503, e504]
  · intro code msg h
    simp [classifyError, h]
  · intro msg
    simp [classifyError]
  · intro ma bb bm j behav rand hb
    obtain ⟨k, hk⟩ : ∃ k, resolveOrN ma defaultMaxAttempts = k + 1 :=
      ⟨resolveOrN ma defaultMaxAttempts - 1,
        (Nat.succ_pred_eq_of_pos (resolveOrN_pos ma)).symm⟩
    unfold withRetry
    rw [hk]
    simp [withRetryLoop, hb]
  · intro ma bb bm j behav rand e hb hcls
    obtain ⟨k, hk⟩ : ∃ k, resolveOrN ma defaultMaxAttempts = k + 1 :=
      ⟨resolveOrN ma defaultMaxAttempts - 1,
        (Nat.succ_pred_eq_of_pos (resolveOrN_pos ma)).symm⟩
    unfold withRetry
    rw [hk]
    simp [withRetryLoop, hb, hcls]
  · intro j behav rand a h0 h1
    unfold withRetry
    simp [resolveOrN, resolveOrQ, defaultMaxAttempts, defaultBackoffBase, defaultBackoffMax,
      withRetryLoop, h0, h1]
  · intro j behav rand h
    unfold withRetry
    simp [resolveOrN, resolveOrQ, defaultMaxAttempts, defaultBackoffBase, defaultBackoffMax,
      withRetryLoop, h 0 (by decide), h 1 (by decide), h 2 (by decide)]
  · intro j behav rand ra a h0 h1 hra
    unfold withRetry
    simp [resolveOrN, resolveOrQ, defaultMaxAttempts, defaultBackoffBase, defaultBackoffMax,
      withRetryLoop, h0, h1, hra]

/-- Claim C7, counterexample: HTTP 501 is a 5xx status, yet
`classify_error` marks it permanent (only 500/502/503/504 are in the
transient tuple) and `with_retry` gives up after a single call. -/
theorem retry_policy_5xx_counterexample :
    classifyError (.httpStatus 501 none) = .permanent
  ∧ (withRetry none none none false
      (fun _ => (.errRaw (.httpStatus 501 none) : CallOutcome Unit)) (fun _ => 0)).calls = 1 :=
  ⟨rfl, rfl⟩

theorem retry_policy_witness :
    (400 ≤ 404 ∧ 404 < 500 ∧ 404 ≠ 429
      ∧ classifyError (.httpStatus 404 none) = .permanent)
  ∧ withRetry (some 5) none none false (fun _ => (.errSup .permanent : CallOutcome Unit))
      (fun _ => 0) = ⟨.error (.sup .permanent), 1, []⟩
  ∧ withRetry none none none false (fun _ => (.errRaw (.httpStatus 404 none) : CallOutcome Unit))
      (fun _ => 0) = ⟨.error (.sup .permanent), 1, []⟩
  ∧ withRetry none none none true
      (fun n => if n = 0 then (.errSup .transient : CallOutcome Unit) else .ok ())
      (fun _ => 1 / 3) = ⟨.ok (), 2, [jittered true (expBackoff (1 / 2) 30 0) (1 / 3)]⟩
  ∧ withRetry none none none true (fun _ => (.errSup .transient : CallOutcome Unit))
      (fun _ => 1 / 3) =
      ⟨.error (.sup .transient), 3,
        [jittered true (expBackoff (1 / 2) 30 0) (1 / 3),
          jittered true (expBackoff (1 / 2) 30 1) (1 / 3)]⟩
  ∧ withRetry none none none true
      (fun n => if n = 0 then (.errSup (.rateLimited (some 7)) : CallOutcome Unit) else .ok ())
      (fun _ => 1 / 3) = ⟨.ok (), 2, [jittered true (min (7 : ℚ) 30) (1 / 3)]⟩
  ∧ expBackoff (1 / 2) 30 10 ≤ 30 :=
  ⟨⟨by decide, by decide, by decide,
      retry_policy.2.2.2.1 404 none (by decide) (by decide) (by decide)⟩,
    retry_policy.2.2.2.2.2.2.1 (some 5) none none false _ _ rfl,
    retry_policy.2.2.2.2.2.2.2.1 none none none false _ _ (.httpStatus 404 none) rfl rfl,
    retry_policy.2.2.2.2.2.2.2.2.1 true _ _ () rfl rfl,
    retry_policy.2.2.2.2.2.2.2.2.2.1 true _ _ (fun n hn => by
      interval_cases n <;> rfl),
    retry_policy.2.2.2.2.2.2.2.2.2.2.1 true _ _ 7 () rfl rfl (by decide),
    retry_policy.2.2.2.2.2.2.2.2.2.2.2 (1 / 2) 30 10⟩

/-! ## Claim C6: `_format_based_on` -/

/-- A parsed reference: document id plus optional section. -/
structure RefItem where
  doc : List Char
  para : Option (List Char)
deriving DecidableEq, Repr

/-- The textual form of a reference, `doc` or `doc/§para`. -/
def refStringL (it : RefItem) : List Char :=
  it.doc ++ (match it.para with | some p => '/' :: '§' :: p | none => [])

/-- Join pieces with the `"; "` delimiter. -/
def joinSemiL : List (List Char) → List Char
  | [] => []
  | [p] => p
  | p :: ps => p ++ ';' :: ' ' :: joinSemiL ps

/-- The keys of a Python dict built by first insertion, in order. -/
def keysInOrder : List (List Char) → List (List Char)
  | [] => []
  | d :: ds => d :: (keysInOrder ds).filter (fun x => decide (x ≠ d))

/-- The claim's description of the grouping: one group per distinct
doc id in first-appearance order, holding that doc's captured sections
in order. -/
def specGroups (items : List RefItem) : List RefGroup :=
  (keysInOrder (items.map (fun it => it.doc))).map
    (fun d => ⟨d, (items.filter (fun it => decide (it.doc = d))).filterMap (fun it => it.para)⟩)

/-- Extend an existing group by the later items matching its key. -/
def extendGroup (items : List RefItem) (g : RefGroup) : RefGroup :=
  ⟨g.key,
    g.paras ++ (items.filter (fun it => decide (it.doc = g.key))).filterMap (fun it => it.para)⟩

/-- The groups created for keys not already present in `ks`. -/
def newGroups (ks : List (List Char)) (items : List RefItem) : List RefGroup :=
  ((keysInOrder (items.map (fun it => it.doc))).filter (fun d => decide (d ∉ ks))).map
    (fun d => ⟨d, (items.filter (fun it => decide (it.doc = d))).filterMap (fun it => it.para)⟩)

/-- No strict suffix of the piece could begin a `(?:lov|forskrift)/\d{4}`
boundary, whatever text follows the piece. -/
def noInnerB (l : List Char) : Prop :=
  ∀ i, i < l.length → 0 < i →
    compat lovPat (l.drop i) = false ∧ compat forPat (l.drop i) = false

instance decNoInnerB : ∀ l, Decidable (noInnerB l) := fun l => by
  unfold noInnerB; infer_instance

/-- A piece at which the split regex cuts cleanly: it starts with a
boundary and no boundary can start strictly inside it. -/
def PieceWF (l : List Char) : Prop := isBoundary l = true ∧ noInnerB l

instance decPieceWF : ∀ l, Decidable (PieceWF l) := fun l => by
  unfold PieceWF; infer_instance

/-- A well-formed reference: its textual form round-trips through the
match regex, contains no `;`, and is a clean split piece. -/
def RefWF (it : RefItem) : Prop :=
  matchRef (refStringL it) = some (it.doc, it.para) ∧ ';' ∉ refStringL it
    ∧ PieceWF (refStringL it)

instance decRefWF : DecidablePred RefWF := fun it => by
  unfold RefWF; infer_instance

/-- A full pattern match survives appending on the right. -/
theorem charsMatch_append {pat : List (Char → Bool)} :
    ∀ {xs : List Char} (ys : List Char), charsMatch pat xs = true →
      charsMatch pat (xs ++ ys) = true := by
  induction pat with
  | nil => intro xs ys _; rfl
  | cons p ps ih =>
    intro xs ys h
    cases xs with
    | nil => cases h
    | cons c cs =>
      simp only [charsMatch, Bool.and_eq_true] at h
      simpa [charsMatch, h.1] using ih ys h.2

/-- If the pattern fully matches `xs ++ ys`, then `xs` alone is at
least consistent with it. -/
theorem compat_of_charsMatch_append {pat : List (Char → Bool)} :
    ∀ {xs ys : List Char}, charsMatch pat (xs ++ ys) = true → compat pat xs = true := by
  induction pat with
  | nil =>
    intro xs ys _
    cases xs <;> rfl
  | cons p ps ih =>
    intro xs ys h
    cases xs with
    | nil => rfl
    | cons c cs =>
      simp only [List.cons_append, charsMatch, Bool.and_eq_true] at h
      simpa [compat, h.1] using ih h.2

/-- A boundary match survives appending on the right. -/
theorem isBoundary_append {xs : List Char} (ys : List Char) (h : isBoundary xs = true) :
    isBoundary (xs ++ ys) = true := by
  unfold isBoundary at h ⊢
  rcases Bool.or_eq_true_iff.1 h with h1 | h1
  · exact Bool.or_eq_true_iff.2 (.inl (charsMatch_append ys h1))
  · exact Bool.or_eq_true_iff.2 (.inr (charsMatch_append ys h1))

/-- A boundary match of `xs ++ ys` makes `xs` consistent with one of
the two patterns. -/
theorem compat_of_isBoundary_append {xs ys : List Char} (h : isBoundary (xs ++ ys) = true) :
    compat lovPat xs = true ∨ compat forPat xs = true := by
  unfold isBoundary at h
  rcases Bool.or_eq_true_iff.1 h with h1 | h1
  · exact .inl (compat_of_charsMatch_append h1)
  · exact .inr (compat_of_charsMatch_append h1)

/-- A boundary piece starts with `l` or `f`. -/
theorem boundary_head {l : List Char} (h : isBoundary l = true) :
    ∃ t, l = 'l' :: t ∨ l = 'f' :: t := by
  cases l with
  | nil => cases h
  | cons c t =>
    refine ⟨t, ?_⟩
    unfold isBoundary at h
    rcases Bool.or_eq_true_iff.1 h with h1 | h1
    · simp only [lovPat, charsMatch, Bool.and_eq_true, beq_iff_eq] at h1
      exact .inl (by rw [h1.1])
    · simp only [forPat, charsMatch, Bool.and_eq_true, beq_iff_eq] at h1
      exact .inr (by rw [h1.1])

/-- `re.sub(r";\s*","",·)` passes a `;`-free prefix through. -/
theorem removeSemisAux_pass {p : List Char} (hp : ';' ∉ p) (r : List Char) :
    removeSemisAux false (p ++ r) = p ++ removeSemisAux false r := by
  induction p with
  | nil => rfl
  | cons c cs ih =>
    have hc : c ≠ ';' := fun hcc => hp (hcc ▸ List.mem_cons_self c cs)
    have hcs : ';' ∉ cs := fun hm => hp (List.mem_cons_of_mem c hm)
    simp only [List.cons_append, removeSemisAux, if_neg hc, false_and, if_false]
    exact congrArg (c :: ·) (ih hcs)

/-- After a removed `;`, the skip state ends at the first character
that is neither `;` nor whitespace. -/
theorem removeSemisAux_skip_stop {c : Char} (h1 : c ≠ ';') (h2 : c.isWhitespace = false)
    (r : List Char) : removeSemisAux true (c :: r) = removeSemisAux false (c :: r) := by
  simp [removeSemisAux, h1, h2]

/-- `joinSemiL` of a nonempty list starts with its first piece. -/
theorem joinSemiL_cons_eq (q : List Char) (ps : List (List Char)) :
    ∃ r, joinSemiL (q :: ps) = q ++ r := by
  cases ps with
  | nil => exact ⟨[], by simp [joinSemiL]⟩
  | cons b bs => exact ⟨';' :: ' ' :: joinSemiL (b :: bs), rfl⟩

/-- Removing `;\s*` from a `"; "`-join of `;`-free pieces that each
start with `l`/`f` concatenates the pieces. -/
theorem removeSemis_joinSemiL :
    ∀ ps : List (List Char),
      (∀ p ∈ ps, ';' ∉ p ∧ (∃ t, p = 'l' :: t ∨ p = 'f' :: t)) →
      removeSemis (joinSemiL ps) = ps.flatten
  | [], _ => rfl
  | [p], h => by
    obtain ⟨hs, -⟩ := h p (List.mem_singleton.2 rfl)
    have := removeSemisAux_pass hs []
    simpa [removeSemis, joinSemiL, removeSemisAux] using this
  | p :: q :: ps, h => by
    obtain ⟨hs, -⟩ := h p (List.mem_cons_self _ _)
    obtain ⟨r, hr⟩ := joinSemiL_cons_eq q ps
    obtain ⟨hqs, t, hqt⟩ := h q (List.mem_cons_of_mem _ (List.mem_cons_self _ _))
    have hq : ∃ c t, q = c :: t ∧ c ≠ ';' ∧ c.isWhitespace = false := by
      rcases hqt with h1 | h1
      · exact ⟨'l', t, h1, by decide, by decide⟩
      · exact ⟨'f', t, h1, by decide, by decide⟩
    obtain ⟨c, tq, hqc, hc1, hc2⟩ := hq
    have step : removeSemis (joinSemiL (p :: q :: ps)) =
        p ++ removeSemis (joinSemiL (q :: ps)) := by
      show removeSemisAux false (p ++ ';' :: ' ' :: joinSemiL (q :: ps)) =
        p ++ removeSemisAux false (joinSemiL (q :: ps))
      rw [removeSemisAux_pass hs]
      congr 1
      show removeSemisAux true (' ' :: joinSemiL (q :: ps)) =
        removeSemisAux false (joinSemiL (q :: ps))
      have hws : removeSemisAux true (' ' :: joinSemiL (q :: ps)) =
          removeSemisAux true (joinSemiL (q :: ps)) := by
        simp [removeSemisAux]
      rw [hws, hr, hqc]
      exact removeSemisAux_skip_stop hc1 hc2 _
    rw [step, removeSemis_joinSemiL (q :: ps) (fun x hx => h x (List.mem_cons_of_mem _ hx))]
    simp [List.flatten]

/-- Walking a stretch with no boundary at any of its positions only
moves characters into the accumulator. -/
theorem splitBGo_walk :
    ∀ (s cur R : List Char), (∀ i, i < s.length → isBoundary (s.drop i ++ R) = false) →
      splitBGo cur (s ++ R) = splitBGo (s.reverse ++ cur) R
  | [], cur, R, _ => by simp
  | c :: s, cur, R, h => by
    have h0 : isBoundary (c :: (s ++ R)) = false := by
      simpa using h 0 (Nat.succ_pos _)
    have step : splitBGo cur ((c :: s) ++ R) = splitBGo (c :: cur) (s ++ R) := by
      show splitBGo cur (c :: (s ++ R)) = splitBGo (c :: cur) (s ++ R)
      rw [splitBGo]
      simp [h0]
    rw [step, splitBGo_walk s (c :: cur) R
      (fun i hi => by simpa using h (i + 1) (Nat.succ_lt_succ hi))]
    simp

/-- Interior positions of a well-formed piece admit no boundary, with
any continuation. -/
theorem pieceWF_no_inner_boundary {p : List Char} (hw : PieceWF p) {i : Nat}
    (h1 : 0 < i) (h2 : i < p.length) (R : List Char) :
    isBoundary (p.drop i ++ R) = false := by
  cases hb : isBoundary (p.drop i ++ R) with
  | false => rfl
  | true =>
    exfalso
    rcases compat_of_isBoundary_append hb with hc | hc
    · exact absurd hc (by simp [(hw.2 i h2 h1).1])
    · exact absurd hc (by simp [(hw.2 i h2 h1).2])

/-- With a nonempty accumulator, the splitter cuts the flattening of
well-formed pieces exactly at the piece starts. -/
theorem splitBGo_rest :
    ∀ (ps : List (List Char)) (acc : List Char), acc ≠ [] → (∀ p ∈ ps, PieceWF p) →
      splitBGo acc ps.flatten = acc.reverse :: ps
  | [], acc, _, _ => by simp [splitBGo]
  | p :: ps, acc, hacc, hwf => by
    have hw : PieceWF p := hwf p (List.mem_cons_self _ _)
    obtain ⟨t, ht⟩ := boundary_head hw.1
    have hcons : ∃ c t, p = c :: t := by
      rcases ht with h1 | h1
      · exact ⟨'l', t, h1⟩
      · exact ⟨'f', t, h1⟩
    obtain ⟨c, tp, hp⟩ := hcons
    have hbig : isBoundary (p ++ ps.flatten) = true := isBoundary_append _ hw.1
    have step1 : splitBGo acc ((p :: ps).flatten) = acc.reverse :: splitBGo [c] (tp ++ ps.flatten) := by
      show splitBGo acc (p ++ ps.flatten) = acc.reverse :: splitBGo [c] (tp ++ ps.flatten)
      rw [hp]
      show splitBGo acc (c :: (tp ++ ps.flatten)) = _
      rw [splitBGo]
      have : isBoundary (c :: (tp ++ ps.flatten)) = true := by
        have := hbig
        rwa [hp] at this
      simp [this, hacc]
    have hwalk : splitBGo [c] (tp ++ ps.flatten) = splitBGo (tp.reverse ++ [c]) ps.flatten := by
      refine splitBGo_walk tp [c] ps.flatten (fun i hi => ?_)
      have : tp.drop i = p.drop (i + 1) := by rw [hp]; rfl
      rw [this]
      exact pieceWF_no_inner_boundary hw (Nat.succ_pos _) (by rw [hp]; simpa using hi) _
    have hrev : tp.reverse ++ [c] = p.reverse := by rw [hp]; simp
    have hrest : splitBGo p.reverse ps.flatten = p.reverse.reverse :: ps :=
      splitBGo_rest ps p.reverse (by rw [hp]; simp)
        (fun q hq => hwf q (List.mem_cons_of_mem _ hq))
    rw [step1, hwalk, hrev, hrest]
    simp

/-- The full split of the flattening of well-formed pieces returns the
pieces. -/
theorem splitBoundary_flatten (ps : List (List Char)) (hne : ps ≠ [])
    (hwf : ∀ p ∈ ps, PieceWF p) : splitBoundary ps.flatten = ps := by
  cases ps with
  | nil => exact absurd rfl hne
  | cons p ps =>
    have hw : PieceWF p := hwf p (List.mem_cons_self _ _)
    obtain ⟨t, ht⟩ := boundary_head hw.1
    have hcons : ∃ c t, p = c :: t := by
      rcases ht with h1 | h1
      · exact ⟨'l', t, h1⟩
      · exact ⟨'f', t, h1⟩
    obtain ⟨c, tp, hp⟩ := hcons
    have step1 : splitBGo [] ((p :: ps).flatten) = splitBGo [c] (tp ++ ps.flatten) := by
      show splitBGo [] (p ++ ps.flatten) = _
      rw [hp]
      show splitBGo [] (c :: (tp ++ ps.flatten)) = _
      rw [splitBGo]
      simp
    have hwalk : splitBGo [c] (tp ++ ps.flatten) = splitBGo (tp.reverse ++ [c]) ps.flatten := by
      refine splitBGo_walk tp [c] ps.flatten (fun i hi => ?_)
      have : tp.drop i = p.drop (i + 1) := by rw [hp]; rfl
      rw [this]
      exact pieceWF_no_inner_boundary hw (Nat.succ_pos _) (by rw [hp]; simpa using hi) _
    have hrev : tp.reverse ++ [c] = p.reverse := by rw [hp]; simp
    have hrest : splitBGo p.reverse ps.flatten = p.reverse.reverse :: ps :=
      splitBGo_rest ps p.reverse (by rw [hp]; simp)
        (fun q hq => hwf q (List.mem_cons_of_mem _ hq))
    have hnonempty : ∀ q ∈ p :: ps, q ≠ [] := by
      intro q hq
      obtain ⟨tq, htq⟩ := boundary_head (hwf q hq).1
      rcases htq with h1 | h1 <;> simp [h1]
    unfold splitBoundary
    rw [step1, hwalk, hrev, hrest]
    simp only [List.reverse_reverse]
    rw [List.filter_eq_self.2 (fun a ha => by simpa using hnonempty a ha)]

/-- Folding the split pieces of well-formed references is folding the
references. -/
theorem foldl_addPiece_refs :
    ∀ (items : List RefItem) (gs : List RefGroup),
      (∀ it ∈ items, matchRef (refStringL it) = some (it.doc, it.para)) →
      (items.map refStringL).foldl addPiece gs =
        items.foldl (fun acc it => addMatched acc it.doc it.para) gs
  | [], gs, _ => rfl
  | it :: items, gs, h => by
    have hm : matchRef (refStringL it) = some (it.doc, it.para) :=
      h it (List.mem_cons_self _ _)
    have step : addPiece gs (refStringL it) = addMatched gs it.doc it.para := by
      unfold addPiece
      rw [hm]
    simp only [List.map_cons, List.foldl_cons, step]
    exact foldl_addPiece_refs items _ (fun x hx => h x (List.mem_cons_of_mem _ hx))

/-- An item with no captured section never changes a group body. -/
theorem extendGroup_cons_none {it : RefItem} (hp : it.para = none)
    (rest : List RefItem) (g : RefGroup) :
    extendGroup (it :: rest) g = extendGroup rest g := by
  unfold extendGroup
  rcases h : (decide (it.doc = g.key)) with - | -
  · simp [List.filter_cons, h]
  · simp [List.filter_cons, h, List.filterMap_cons, hp]

/-- An item with a different key never changes a group body. -/
theorem extendGroup_cons_miss {it : RefItem} {g : RefGroup} (hk : it.doc ≠ g.key)
    (rest : List RefItem) : extendGroup (it :: rest) g = extendGroup rest g := by
  unfold extendGroup
  simp [List.filter_cons, hk]

/-- A matching item with a captured section moves its section into the
group body. -/
theorem extendGroup_cons_hit {it : RefItem} {g : RefGroup} {p : List Char}
    (hk : it.doc = g.key) (hp : it.para = some p) (rest : List RefItem) :
    extendGroup (it :: rest) g = extendGroup rest ⟨g.key, g.paras ++ [p]⟩ := by
  unfold extendGroup
  simp [List.filter_cons, hk, List.filterMap_cons, hp]

/-- `addMatched` on an absent key appends the one-item group. -/
theorem addMatched_absent {gs : List RefGroup} {d : List Char} {p : Option (List Char)}
    (h : (gs.any fun g => g.key = d) = false) :
    addMatched gs d p = gs ++ [⟨d, p.toList⟩] := by
  unfold addMatched
  rw [h]
  cases p <;> rfl

/-- `addMatched` on a present key with no section is the identity. -/
theorem addMatched_present_none {gs : List RefGroup} {d : List Char}
    (h : (gs.any fun g => g.key = d) = true) : addMatched gs d none = gs := by
  unfold addMatched
  rw [h]
  rfl

/-- `addMatched` on a present key with a section appends it to that
group. -/
theorem addMatched_present_some {gs : List RefGroup} {d : List Char} {p : List Char}
    (h : (gs.any fun g => g.key = d) = true) :
    addMatched gs d (some p) =
      gs.map (fun g => if g.key = d then ⟨g.key, g.paras ++ [p]⟩ else g) := by
  unfold addMatched
  rw [h]
  rfl

/-- The `any` test of `addMatched` is key membership. -/
theorem any_key_iff (gs : List RefGroup) (d : List Char) :
    (gs.any fun g => g.key = d) = true ↔ d ∈ gs.map (fun g => g.key) := by
  simp [List.any_eq_true, List.mem_map]

/-- `newGroups` ignores an item whose key is already known. -/
theorem newGroups_cons_present {ks : List (List Char)} {it : RefItem}
    (h : it.doc ∈ ks) (rest : List RefItem) :
    newGroups ks (it :: rest) = newGroups ks rest := by
  unfold newGroups
  simp only [List.map_cons, keysInOrder]
  rw [List.filter_cons]
  have hd : (decide (it.doc ∉ ks)) = false := by simpa using h
  rw [hd]
  simp only [Bool.false_eq_true, if_false, List.filter_filter]
  rw [List.filter_congr (fun a _ => ?_)]
  · refine List.map_congr_left (fun d hd2 => ?_)
    have hdk : d ∉ ks := by simpa using (List.mem_filter.1 hd2).2
    have hdne : ¬ it.doc = d := fun he => hdk (he ▸ h)
    simp [List.filter_cons, hdne]
  · by_cases ha : a ∈ ks
    · simp [ha]
    · have : a ≠ it.doc := fun he => ha (he ▸ h)
      simp [ha, this]

/-- `newGroups` opens a fresh group for an unknown key and remembers
it. -/
theorem newGroups_cons_absent {ks : List (List Char)} {it : RefItem}
    (h : it.doc ∉ ks) (rest : List RefItem) :
    newGroups ks (it :: rest) =
      extendGroup rest ⟨it.doc, it.para.toList⟩ :: newGroups (ks ++ [it.doc]) rest := by
  unfold newGroups
  simp only [List.map_cons, keysInOrder]
  rw [List.filter_cons]
  have hd : (decide (it.doc ∉ ks)) = true := by simpa using h
  rw [hd]
  simp only [if_true, List.map_cons]
  congr 1
  · unfold extendGroup
    simp only [List.filter_cons, decide_True, if_true, List.filterMap_cons]
    cases hp : it.para <;> simp [Option.toList]
  · rw [List.filter_filter]
    rw [List.filter_congr (fun a _ => ?_)]
    · refine List.map_congr_left (fun d hd2 => ?_)
      have hdk : d ∉ ks ++ [it.doc] := by simpa using (List.mem_filter.1 hd2).2
      have hdne : ¬ it.doc = d := by
        intro he
        exact hdk (by simp [he])
      simp [List.filter_cons, hdne]
    · by_cases ha : a ∈ ks
      · simp [ha]
      · by_cases hb : a = it.doc <;> simp [ha, hb]

/-- The fold of `addMatched` over a run of items, started from any
accumulator, extends the existing groups in place and appends the new
keys' groups in first-appearance order. -/
theorem foldl_addMatched_spec :
    ∀ (items : List RefItem) (acc : List RefGroup),
      items.foldl (fun gs it => addMatched gs it.doc it.para) acc =
        acc.map (extendGroup items) ++ newGroups (acc.map (fun g => g.key)) items
  | [], acc => by
    have hmap : acc.map (extendGroup []) = acc :=
      (List.map_congr_left (fun g _ => by cases g; simp [extendGroup])).trans acc.map_id
    simp [newGroups, keysInOrder, hmap]
  | it :: rest, acc => by
    simp only [List.foldl_cons]
    rw [foldl_addMatched_spec rest (addMatched acc it.doc it.para)]
    by_cases hmem : it.doc ∈ acc.map (fun g => g.key)
    · have hany : (acc.any fun g => g.key = it.doc) = true := (any_key_iff _ _).2 hmem
      cases hp : it.para with
      | none =>
        rw [addMatched_present_none hany]
        rw [newGroups_cons_present hmem]
        congr 1
        exact (List.map_congr_left (fun g _ => (extendGroup_cons_none hp rest g).symm))
      | some p =>
        rw [addMatched_present_some hany]
        have hkeys : (acc.map (fun g => if g.key = it.doc then
            (⟨g.key, g.paras ++ [p]⟩ : RefGroup) else g)).map (fun g => g.key) =
            acc.map (fun g => g.key) := by
          rw [List.map_map]
          refine List.map_congr_left (fun g _ => ?_)
          by_cases hk : g.key = it.doc <;> simp [hk]
        rw [hkeys, newGroups_cons_present hmem]
        congr 1
        rw [List.map_map]
        refine List.map_congr_left (fun g _ => ?_)
        by_cases hk : g.key = it.doc
        · simp only [Function.comp_apply]
          rw [if_pos hk]
          exact (extendGroup_cons_hit hk.symm hp rest).symm
        · have : it.doc ≠ g.key := fun he => hk he.symm
          simp only [Function.comp_apply, hk, if_false]
          exact (extendGroup_cons_miss this rest).symm
    · have hany : (acc.any fun g => g.key = it.doc) = false := by
        cases h2 : (acc.any fun g => g.key = it.doc) with
        | false => rfl
        | true => exact absurd ((any_key_iff _ _).1 h2) hmem
      rw [addMatched_absent hany]
      have hkeys : ((acc ++ [(⟨it.doc, it.para.toList⟩ : RefGroup)]).map (fun g => g.key)) =
          acc.map (fun g => g.key) ++ [it.doc] := by simp
      rw [hkeys, newGroups_cons_absent hmem]
      have hmaps : acc.map (extendGroup (it :: rest)) = acc.map (extendGroup rest) := by
        refine List.map_congr_left (fun g hg => ?_)
        have : it.doc ≠ g.key := by
          intro he
          exact hmem (List.mem_map.2 ⟨g, hg, he.symm⟩)
        exact extendGroup_cons_miss this rest
      rw [hmaps]
      simp

/-- Folding `addMatched` from the empty dict realises the claim's
grouping. -/
theorem foldl_addMatched_specGroups (items : List RefItem) :
    items.foldl (fun gs it => addMatched gs it.doc it.para) [] = specGroups items := by
  rw [foldl_addMatched_spec items []]
  unfold newGroups specGroups
  simp

/-- Claim C6 (amended): `_format_based_on` is *not* idempotent in
general, but on a `"; "`-delimited list of well-formed references it
groups the parsed `(doc_id, section?)` references by doc id in
first-appearance order — a single-section group rendering as
`doc_id § s`, a multi-section group as `doc_id §§ s1, s2`, a bare
document reference as `doc_id` — and joins the groups with `"; "`. -/
theorem format_based_on_groups (items : List RefItem) (hne : items ≠ [])
    (hwf : ∀ it ∈ items, RefWF it) :
    formatBasedOn ⟨joinSemiL (items.map refStringL)⟩ =
      joinSep "; " ((specGroups items).map renderGroup) := by
  have hpcs : ∀ p ∈ items.map refStringL, ';' ∉ p ∧ (∃ t, p = 'l' :: t ∨ p = 'f' :: t) := by
    intro p hp
    obtain ⟨it, hit, rfl⟩ := List.mem_map.1 hp
    exact ⟨(hwf it hit).2.1, boundary_head (hwf it hit).2.2.1⟩
  have hPW : ∀ p ∈ items.map refStringL, PieceWF p := by
    intro p hp
    obtain ⟨it, hit, rfl⟩ := List.mem_map.1 hp
    exact (hwf it hit).2.2
  have hmapne : items.map refStringL ≠ [] := by
    cases items with
    | nil => exact absurd rfl hne
    | cons a l => simp
  simp only [formatBasedOn]
  rw [removeSemis_joinSemiL _ hpcs, splitBoundary_flatten _ hmapne hPW]
  rw [if_neg hmapne]
  rw [foldl_addPiece_refs items [] (fun it hit => (hwf it hit).1)]
  rw [foldl_addMatched_specGroups]

/-- Claim C6, counterexample to idempotence: the first pass collapses
the two references of this input into `... § 3; ... § 3`, and a second
pass merges them into a single group, so `f (f s) ≠ f s`. -/
theorem format_based_on_not_idempotent :
    formatBasedOn (formatBasedOn "lov/2005-06-17-62/§3lov/2005-06-17-62 § 3") ≠
      formatBasedOn "lov/2005-06-17-62/§3lov/2005-06-17-62 § 3" := by decide

theorem format_based_on_groups_witness :
    formatBasedOn ⟨joinSemiL (([⟨"lov/2005-06-17-62".data, some "1-4".data⟩,
        ⟨"lov/2005-06-17-62".data, some "14-12".data⟩,
        ⟨"forskrift/2007-05-31-590".data, none⟩] : List RefItem).map refStringL)⟩ =
      joinSep "; " ((specGroups ([⟨"lov/2005-06-17-62".data, some "1-4".data⟩,
        ⟨"lov/2005-06-17-62".data, some "14-12".data⟩,
        ⟨"forskrift/2007-05-31-590".data, none⟩] : List RefItem)).map renderGroup)
  ∧ formatBasedOn "lov/2005-06-17-62/§1-4; lov/2005-06-17-62/§14-12; forskrift/2007-05-31-590" =
      "lov/2005-06-17-62 §§ 1-4, 14-12; forskrift/2007-05-31-590" :=
  ⟨format_based_on_groups _ (by decide) (by decide), by decide⟩

end Paragraf
